import Mathlib

/-!
# s3-csi-driver: volume identifiers, volume locks, controller and node services

A shallow embedding of the Go sources under `driver/` and `driver/utils/`.

* Go strings are modelled by Lean `String`s (the separator `/` is a single
  byte that never occurs inside a multi-byte UTF-8 sequence, so splitting on
  it by character and by byte agree).
* Go `error` values are modelled by `GoError`; a `nil` error is `none`.
* The remote object store reached through the minio client is a parameter
  (`Minio σ`); every call made through the client is recorded in a call log,
  so that statements of the form "issues / never issues a call" can be stated.
* The operating system of the node (mount table, external commands, files,
  sleeping) is a parameter too (`OS σ`), with its own call log.
-/

namespace S3Csi

/-! ## Go standard library: `strings.SplitN`, `path.Clean`, `path.Join` -/

/-- First occurrence of the non-empty separator `sep` in `s` (Go `strings.Index`
followed by the two slicings `s[:m]` and `s[m+len(sep):]` of `genSplit`):
`none` when `sep` does not occur. -/
def cutAt (sep : List Char) : List Char → Option (List Char × List Char)
  | [] => none
  | c :: cs =>
    if sep.isPrefixOf (c :: cs) then some ([], (c :: cs).drop sep.length)
    else match cutAt sep cs with
      | none => none
      | some (a, b) => some (c :: a, b)

/-- Go `strings.explode(s, n)`: at most `n` pieces, all but the last one a
single character. -/
def explode : Nat → List Char → List (List Char)
  | _, [] => []
  | 0, _ => []
  | 1, s => [s]
  | n + 2, c :: cs => [c] :: explode (n + 1) cs

/-- The loop of Go `strings.genSplit` for a non-empty separator and a limit of
`n` pieces: cut at the separator `n - 1` times at most, the last piece is the
unsplit remainder. -/
def genSplit (sep : List Char) : Nat → List Char → List (List Char)
  | 0, _ => []
  | 1, s => [s]
  | n + 2, s =>
    match cutAt sep s with
    | none => [s]
    | some (a, b) => a :: genSplit sep (n + 1) b

/-- Go `strings.SplitN(s, sep, n)`: `n = 0` gives `nil`, `n < 0` means no limit,
an empty separator explodes the string. -/
def SplitN (s sep : String) (n : Int) : List String :=
  if n = 0 then []
  else
    let lim : Nat := if n < 0 then s.data.length + 1 else n.toNat
    if sep.data = [] then (explode lim s.data).map String.mk
    else (genSplit sep.data lim s.data).map String.mk

/-- One path element processed by Go `path.Clean`; `stack` holds the elements
written so far, last one first. Empty and `.` elements are dropped, `..`
removes the preceding real element if there is one, is dropped at the root
and is kept at the front of a relative path. -/
def cleanStep (rooted : Bool) (stack : List (List Char)) (e : List Char) :
    List (List Char) :=
  if e = [] ∨ e = ['.'] then stack
  else if e = ['.', '.'] then
    match stack with
    | [] => if rooted then [] else [e]
    | top :: rest =>
      if top = ['.', '.'] then (if rooted then stack else e :: stack) else rest
  else e :: stack

/-- Go `path.Clean` on the characters of a path: the shortest equivalent path,
`.` for the empty result. -/
def cleanList (p : List Char) : List Char :=
  if p = [] then ['.']
  else
    let rooted : Bool := p.head? = some '/'
    let stack := (p.splitOn '/').foldl (cleanStep rooted) []
    let out := (if rooted then ['/'] else []) ++ ['/'].intercalate stack.reverse
    if out = [] then ['.'] else out

/-- Go `path.Clean`. -/
def pathClean (p : String) : String := ⟨cleanList p.data⟩

/-- Go `path.Join`: the non-empty elements joined by `/`, then cleaned; the
empty string when every element is empty. -/
def pathJoin (elem : List String) : String :=
  if (elem.map String.length).sum = 0 then ""
  else pathClean ("/".intercalate (elem.filter (fun e => e ≠ "")))

/-- A path element that `path.Clean` keeps as it is: not empty, not `.` and
not `..`. -/
def isRealElem (e : List Char) : Bool :=
  decide (e ≠ [] ∧ e ≠ ['.'] ∧ e ≠ ['.', '.'])

/-- A single path element: a string without `/` that is not empty, `.` or
`..`. -/
def IsName (s : String) : Prop :=
  '/' ∉ s.data ∧ isRealElem s.data = true

instance (s : String) : Decidable (IsName s) := by
  unfold IsName; infer_instance

/-- A clean relative path: between its slashes stand only elements that are not
empty, `.` or `..` (so it neither starts nor ends with `/` and has no `//`). -/
def IsCleanRel (p : String) : Prop :=
  ∀ e ∈ p.data.splitOn '/', isRealElem e = true

instance (p : String) : Decidable (IsCleanRel p) := by
  unfold IsCleanRel; infer_instance

/-! ## `driver/controller_server.go`: the volume identifier codec -/

/-- Source `volumeIDToBucketPrefix`: the bucket name and prefix of a volume ID. -/
def volumeIDToBucketPrefix (volumeID : String) : String × String :=
  let splitVolumeID := SplitN volumeID "/" 2
  match splitVolumeID with
  | a :: b :: _ => (a, b)
  | _ => (volumeID, "")

/-! ## `driver/utils/volume.go`: the volume lock registry -/

/-- Source `VolumeLocks`: the Go map `lock map[string]struct{}` is the finite set
of its keys. Every method runs under the mutex `mu`, so each one is an atomic
step on this state. -/
structure VolumeLocks where
  lock : Finset String
deriving DecidableEq

namespace VolumeLocks

/-- Source `NewVolumeLocks`. -/
def NewVolumeLocks : VolumeLocks := ⟨∅⟩

/-- Source `VolumeLocks.Lock`: `v.lock[volumeID] = struct{}{}`. -/
def Lock (v : VolumeLocks) (volumeID : String) : VolumeLocks :=
  ⟨insert volumeID v.lock⟩

/-- Source `VolumeLocks.Unlock`: `delete(v.lock, volumeID)`. -/
def Unlock (v : VolumeLocks) (volumeID : String) : VolumeLocks :=
  ⟨v.lock.erase volumeID⟩

/-- Source `VolumeLocks.IsLocked`. -/
def IsLocked (v : VolumeLocks) (volumeID : String) : Bool :=
  decide (volumeID ∈ v.lock)

/-- Source `VolumeLocks.TryAcquire`: the returned flag and the registry after
the call. -/
def TryAcquire (v : VolumeLocks) (volumeID : String) : Bool × VolumeLocks :=
  if volumeID ∈ v.lock then (false, v)
  else (true, ⟨insert volumeID v.lock⟩)

/-- Source `VolumeLocks.Release`: `delete(v.lock, volumeID)`. -/
def Release (v : VolumeLocks) (volumeID : String) : VolumeLocks :=
  ⟨v.lock.erase volumeID⟩

end VolumeLocks

/-- One call of a method of `VolumeLocks`. -/
inductive LockOp where
  | Lock (volumeID : String)
  | Unlock (volumeID : String)
  | IsLocked (volumeID : String)
  | TryAcquire (volumeID : String)
  | Release (volumeID : String)
deriving DecidableEq

/-- The registry after one method call. -/
def VolumeLocks.step (v : VolumeLocks) : LockOp → VolumeLocks
  | .Lock id => v.Lock id
  | .Unlock id => v.Unlock id
  | .IsLocked _ => v
  | .TryAcquire id => (v.TryAcquire id).2
  | .Release id => v.Release id

/-- The registry after a sequence of method calls, in order. -/
def VolumeLocks.run (v : VolumeLocks) (ops : List LockOp) : VolumeLocks :=
  ops.foldl VolumeLocks.step v

/-! ## Errors, maps and the object store reached through the minio client -/

/-- The gRPC status codes the driver returns. -/
inductive Code where
  | InvalidArgument
  | NotFound
  | Internal
  | Unimplemented
deriving DecidableEq

/-- Go `codes.Code.String`. -/
def Code.String : Code → String
  | .InvalidArgument => "InvalidArgument"
  | .NotFound => "NotFound"
  | .Internal => "Internal"
  | .Unimplemented => "Unimplemented"

/-- A non-nil Go `error`: either a plain error with a message (`fmt.Errorf`, or
an error of the minio client or of the standard library) or a gRPC status
(`status.Error`, `status.Errorf`). -/
inductive GoError where
  | errorf (msg : String)
  | status (code : Code) (msg : String)
deriving DecidableEq

deriving instance DecidableEq for Except

/-- Go `err.Error()`. -/
def GoError.Error : GoError → String
  | .errorf msg => msg
  | .status code msg => "rpc error: code = " ++ code.String ++ " desc = " ++ msg

/-- A Go `map[string]string`, as a list of key/value pairs. -/
abbrev StrMap := List (String × String)

/-- Go `m[key]` on a `map[string]string`: the empty string for a missing key. -/
def StrMap.get (m : StrMap) (key : String) : String :=
  (m.lookup key).getD ""

/-- Type `minio.ObjectInfo`, the fields the driver reads: an entry of a listing
is an object or carries the error that ended the listing. -/
structure ObjectInfo where
  Key : String
  VersionID : String
  Err : Option GoError
deriving DecidableEq

/-- Type `minio.RemoveObjectError`, one failed removal of a bulk removal. -/
structure RemoveObjectError where
  ObjectName : String
  Err : GoError
deriving DecidableEq

/-- What a `ListObjects` channel delivers: its entries in order, and whether
the goroutine that reads it has already met the listing error when the caller
tests `listErr` right after starting that goroutine (a race in the source,
resolved by this flag). -/
structure Listing where
  entries : List ObjectInfo
  eager : Bool
deriving DecidableEq

/-- A call made on the minio client. -/
inductive Call where
  | BucketExists (bucketName : String)
  | MakeBucket (bucketName : String)
  | PutObject (bucketName objectName : String) (size : Int)
  | RemoveBucket (bucketName : String)
  | RemoveObject (bucketName objectName versionID : String)
  | ListObjects (bucketName pfx : String) (recursive : Bool)
  | RemoveObjects (bucketName : String) (objects : List ObjectInfo)
deriving DecidableEq

/-- The methods of `*minio.Client` the driver calls, as transitions on a store
state `σ`. `PutObject` is the call with a nil reader and size 0. -/
structure Minio (σ : Type) where
  BucketExists : σ → String → (Bool × Option GoError) × σ
  MakeBucket : σ → String → Option GoError × σ
  PutObject : σ → String → String → Option GoError × σ
  RemoveBucket : σ → String → Option GoError × σ
  RemoveObject : σ → String → String → String → Option GoError × σ
  ListObjects : σ → String → String → Bool → Listing × σ
  RemoveObjects : σ → String → List ObjectInfo → List RemoveObjectError × σ

/-- The object store together with the log of the calls made on the client,
oldest first. -/
structure World (σ : Type) where
  store : σ
  calls : List Call

/-- Record one call and the store state it leaves. -/
def World.record {σ : Type} (w : World σ) (st : σ) (c : Call) : World σ :=
  ⟨st, w.calls ++ [c]⟩

/-! ## The minio client: the checks it makes on names before it sends a request -/

/-- Go `unicode.IsSpace`. -/
def isSpace (c : Char) : Bool :=
  c.toNat ∈ [0x09, 0x0A, 0x0B, 0x0C, 0x0D, 0x20, 0x85, 0xA0, 0x1680, 0x2028, 0x2029,
    0x202F, 0x205F, 0x3000] || (0x2000 ≤ c.toNat && c.toNat ≤ 0x200A)

/-- The test `strings.TrimSpace(s) == ""`. -/
def isBlank (s : String) : Bool :=
  s.data.all isSpace

/-- Go `strings.Contains`, for a non-empty `substr`. -/
def Contains (s substr : String) : Bool :=
  (cutAt substr.data s.data).isSome

/-- A match of a regular expression of the shape `^[edge][mid]{1,61}[edge]$`. -/
def matchName (edge mid : Char → Bool) (s : List Char) : Bool :=
  match s with
  | [] => false
  | first :: rest =>
    match rest.getLast? with
    | none => false
    | some last =>
      edge first && edge last && rest.dropLast.all mid &&
        decide (1 ≤ rest.dropLast.length) && decide (rest.dropLast.length ≤ 61)

/-- The character class `[A-Za-z0-9]`. -/
def alnum (c : Char) : Bool :=
  c.isAlphanum

/-- The character class `[a-z0-9]`. -/
def lowerAlnum (c : Char) : Bool :=
  c.isLower || c.isDigit

/-- The minio-go regular expression `validBucketName`,
`^[A-Za-z0-9][A-Za-z0-9\.\-\_\:]{1,61}[A-Za-z0-9]$`. -/
def validBucketName (s : String) : Bool :=
  matchName alnum (fun c => alnum c || c == '.' || c == '-' || c == '_' || c == ':') s.data

/-- The minio-go regular expression `validBucketNameStrict`,
`^[a-z0-9][a-z0-9\.\-]{1,61}[a-z0-9]$`. -/
def validBucketNameStrict (s : String) : Bool :=
  matchName lowerAlnum (fun c => lowerAlnum c || c == '.' || c == '-') s.data

/-- The minio-go regular expression `ipAddress`, `^(\d+\.){3}\d+$`. -/
def ipAddress (s : String) : Bool :=
  (s.data.splitOn '.').length == 4 &&
    (s.data.splitOn '.').all (fun p => !p.isEmpty && p.all Char.isDigit)

/-- Function `checkBucketNameCommon` of minio-go (`pkg/s3utils`). -/
def checkBucketNameCommon (bucketName : String) (strict : Bool) : Option GoError :=
  if isBlank bucketName then some (.errorf "Bucket name cannot be empty")
  else if bucketName.utf8ByteSize < 3 then
    some (.errorf "Bucket name cannot be shorter than 3 characters")
  else if bucketName.utf8ByteSize > 63 then
    some (.errorf "Bucket name cannot be longer than 63 characters")
  else if ipAddress bucketName then some (.errorf "Bucket name cannot be an ip address")
  else if Contains bucketName ".." || Contains bucketName ".-" || Contains bucketName "-." then
    some (.errorf "Bucket name contains invalid characters")
  else if strict then
    if !validBucketNameStrict bucketName then
      some (.errorf "Bucket name contains invalid characters")
    else none
  else if !validBucketName bucketName then
    some (.errorf "Bucket name contains invalid characters")
  else none

/-- Function `CheckValidBucketName` of minio-go. -/
def CheckValidBucketName (bucketName : String) : Option GoError :=
  checkBucketNameCommon bucketName false

/-- Function `CheckValidBucketNameStrict` of minio-go. -/
def CheckValidBucketNameStrict (bucketName : String) : Option GoError :=
  checkBucketNameCommon bucketName true

/-- Function `CheckValidObjectNamePrefix` of minio-go, on a string of valid
UTF-8. -/
def CheckValidObjectNamePrefix (objectName : String) : Option GoError :=
  if objectName.utf8ByteSize > 1024 then
    some (.errorf "Object name cannot be longer than 1024 characters")
  else none

/-- Function `CheckValidObjectName` of minio-go. -/
def CheckValidObjectName (objectName : String) : Option GoError :=
  if isBlank objectName then some (.errorf "Object name cannot be empty")
  else CheckValidObjectNamePrefix objectName

/-- The S3 requests behind the methods of the minio client, as transitions on
the state `σ` of the object store that answers them. -/
structure Server (σ : Type) where
  BucketExists : σ → String → (Bool × Option GoError) × σ
  MakeBucket : σ → String → Option GoError × σ
  PutObject : σ → String → String → Option GoError × σ
  RemoveBucket : σ → String → Option GoError × σ
  RemoveObject : σ → String → String → String → Option GoError × σ
  ListObjects : σ → String → String → Bool → Listing × σ
  RemoveObjects : σ → String → List ObjectInfo → List RemoveObjectError × σ

/-- The `*minio.Client` that `minio.New` returns for a server: every method
checks the names it is given and sends its request only when they pass; a
listing or bulk removal that is refused delivers the error as its only entry
(the race on a refused listing is resolved as on the server's listing).
`MakeBucket` makes the strict check, the other methods the plain one. -/
def minioClient {σ : Type} (srv : Server σ) : Minio σ where
  BucketExists := fun s b =>
    match CheckValidBucketName b with
    | some err => ((false, some err), s)
    | none => srv.BucketExists s b
  MakeBucket := fun s b =>
    match CheckValidBucketNameStrict b with
    | some err => (some err, s)
    | none => srv.MakeBucket s b
  PutObject := fun s b key =>
    match CheckValidBucketName b with
    | some err => (some err, s)
    | none =>
      match CheckValidObjectName key with
      | some err => (some err, s)
      | none => srv.PutObject s b key
  RemoveBucket := fun s b =>
    match CheckValidBucketName b with
    | some err => (some err, s)
    | none => srv.RemoveBucket s b
  RemoveObject := fun s b key versionID =>
    match CheckValidBucketName b with
    | some err => (some err, s)
    | none =>
      match CheckValidObjectName key with
      | some err => (some err, s)
      | none => srv.RemoveObject s b key versionID
  ListObjects := fun s b pfx recursive =>
    match CheckValidBucketName b with
    | some err => (⟨[⟨"", "", some err⟩], (srv.ListObjects s b pfx recursive).1.eager⟩, s)
    | none =>
      match CheckValidObjectNamePrefix pfx with
      | some err => (⟨[⟨"", "", some err⟩], (srv.ListObjects s b pfx recursive).1.eager⟩, s)
      | none => srv.ListObjects s b pfx recursive
  RemoveObjects := fun s b objs =>
    match CheckValidBucketName b with
    | some err => ([⟨"", err⟩], s)
    | none => srv.RemoveObjects s b objs

/-- Source `Config`. -/
structure Config where
  AccessKeyID : String
  SecretAccessKey : String
  Region : String
  Endpoint : String
  Mounter : String
deriving DecidableEq

/-- Source `Metadata`. -/
structure Metadata where
  BucketName : String
  Prefix : String
  Mounter : String
  MountOptions : List String
  CapacityBytes : Int
deriving DecidableEq

/-- The parts of a parsed `url.URL` that `NewS3Client` reads: `u.Scheme`,
`u.Host` and `u.Port()`. -/
structure URL where
  Scheme : String
  Host : String
  Port : String
deriving DecidableEq

/-- Source `S3Client` (the context field is `context.Background()`). -/
structure S3Client (σ : Type) where
  Config : Config
  Minio : Minio σ

/-- The two library constructors `NewS3Client` calls: `url.Parse` and
`minio.New(endpoint, accessKeyID, secretAccessKey, secure, region)`, the latter
given by the server its client talks to. -/
structure Env (σ : Type) where
  urlParse : String → Except GoError URL
  minioNew : String → String → String → Bool → String → Except GoError (Server σ)

/-! ## `driver/utils/s3.go` -/

/-- Source `NewS3Client`. -/
def NewS3Client {σ : Type} (env : Env σ) (cfg : Config) : Except GoError (S3Client σ) :=
  match env.urlParse cfg.Endpoint with
  | .error err =>
    .error (.errorf ("create Client: failed to parse endpoint: " ++ err.Error))
  | .ok u =>
    let ssl : Bool := u.Scheme == "https"
    let endpoint := if u.Port = "" then u.Host ++ ":" ++ u.Port else u.Host
    match env.minioNew endpoint cfg.AccessKeyID cfg.SecretAccessKey ssl cfg.Region with
    | .error err =>
      .error (.errorf ("reate Client: failed to create client: " ++ err.Error))
    | .ok srv => .ok ⟨cfg, minioClient srv⟩

/-- Source `NewClientFromSecrets`. -/
def NewClientFromSecrets {σ : Type} (env : Env σ) (secrets : StrMap) :
    Except GoError (S3Client σ) :=
  NewS3Client env
    { AccessKeyID := secrets.get "accessKeyID"
      SecretAccessKey := secrets.get "secretAccessKey"
      Region := secrets.get "region"
      Endpoint := secrets.get "endpoint"
      Mounter := "" }

namespace S3Client

variable {σ : Type}

/-- Source `S3Client.CreateBucket`. -/
def CreateBucket (c : S3Client σ) (bucketName : String) (w : World σ) :
    Option GoError × World σ :=
  match c.Minio.MakeBucket w.store bucketName with
  | (some err, st) =>
    (some (.errorf ("CreateBucket: failed to create bucket " ++ bucketName ++ ": "
      ++ err.Error)), w.record st (.MakeBucket bucketName))
  | (none, st) => (none, w.record st (.MakeBucket bucketName))

/-- Source `S3Client.CreatePrefix`: a `PutObject` of size 0 under the key
`prefix`. -/
def CreatePrefix (c : S3Client σ) (bucketName pfx : String) (w : World σ) :
    Option GoError × World σ :=
  match c.Minio.PutObject w.store bucketName pfx with
  | (some err, st) =>
    (some (.errorf ("CreatePrefix: failed to create prefix " ++ pfx ++ ": "
      ++ err.Error)), w.record st (.PutObject bucketName pfx 0))
  | (none, st) => (none, w.record st (.PutObject bucketName pfx 0))

/-- Source `S3Client.IsBucketExist`: the boolean returned by the client's
`BucketExists` is assigned to `_`. -/
def IsBucketExist (c : S3Client σ) (bucketName : String) (w : World σ) :
    (Bool × Option GoError) × World σ :=
  match c.Minio.BucketExists w.store bucketName with
  | ((_, some err), st) =>
    ((false, some (.errorf ("IsBucketExist: failed to check if bucket " ++ bucketName
      ++ " exists: " ++ err.Error))), w.record st (.BucketExists bucketName))
  | ((_, none), st) => ((true, none), w.record st (.BucketExists bucketName))

/-- The objects a listing goroutine forwards: the entries before the first one
that carries an error. -/
def forwarded (l : Listing) : List ObjectInfo :=
  l.entries.takeWhile (fun o => o.Err.isNone)

/-- The `listErr` a listing goroutine ends with: the error of the first entry
that carries one. -/
def listErrOf (l : Listing) : Option GoError :=
  (l.entries.find? (fun o => o.Err.isSome)).bind (fun o => o.Err)

/-- The value of `listErr` that the test `if listErr != nil` reads. The test is
made right after the listing goroutine is started, so it sees the error only
if the goroutine has got there already, which a channel of capacity `cap`
allows only if at most `cap` objects come first. -/
def listErrSeen (l : Listing) (cap : Nat) : Option GoError :=
  if l.eager ∧ (forwarded l).length ≤ cap then listErrOf l else none

/-- Source `S3Client.deleteObjects`: the bulk pass. The objects channel is
unbuffered. -/
def deleteObjects (c : S3Client σ) (bucketName pfx : String) (w : World σ) :
    Option GoError × World σ :=
  match c.Minio.ListObjects w.store bucketName pfx true with
  | (listing, st) =>
    let w1 := w.record st (.ListObjects bucketName pfx true)
    match listErrSeen listing 0 with
    | some listErr => (some listErr, w1)
    | none =>
      match c.Minio.RemoveObjects w1.store bucketName (forwarded listing) with
      | (errs, st2) =>
        let w2 := w1.record st2 (.RemoveObjects bucketName (forwarded listing))
        let haveErrWhenRemoveObjects : Bool := !errs.isEmpty
        if haveErrWhenRemoveObjects then
          (some (.errorf ("failed to remove all objects of bucket " ++ bucketName)), w2)
        else (none, w2)

/-- One iteration of the removal loop of `deleteObjectsOneByOne`: the counter
`removeErrors` and the world after the `RemoveObject` of one object. -/
def removeOne (c : S3Client σ) (bucketName : String) (acc : Nat × World σ)
    (obj : ObjectInfo) : Nat × World σ :=
  match c.Minio.RemoveObject acc.2.store bucketName obj.Key obj.VersionID with
  | (some _, st) =>
    (acc.1 + 1, acc.2.record st (.RemoveObject bucketName obj.Key obj.VersionID))
  | (none, st) =>
    (acc.1, acc.2.record st (.RemoveObject bucketName obj.Key obj.VersionID))

/-- Source `S3Client.deleteObjectsOneByOne`: the one-by-one pass. The objects
channel has capacity `parallelism = 16`; the removals, run by up to 16 workers
in the source, are taken in listing order. -/
def deleteObjectsOneByOne (c : S3Client σ) (bucketName pfx : String) (w : World σ) :
    Option GoError × World σ :=
  let parallelism := 16
  match c.Minio.ListObjects w.store bucketName pfx true with
  | (listing, st) =>
    let w1 := w.record st (.ListObjects bucketName pfx true)
    match listErrSeen listing parallelism with
    | some listErr => (some listErr, w1)
    | none =>
      let totalObjects := (forwarded listing).length
      match (forwarded listing).foldl (removeOne c bucketName) (0, w1) with
      | (removeErrors, w2) =>
        if removeErrors > 0 then
          (some (.errorf ("failed to remove " ++ toString removeErrors
            ++ " objects out of total " ++ toString totalObjects ++ " of path "
            ++ bucketName)), w2)
        else (none, w2)

/-- The client's `RemoveBucket`, recorded. -/
def removeBucket (c : S3Client σ) (bucketName : String) (w : World σ) :
    Option GoError × World σ :=
  match c.Minio.RemoveBucket w.store bucketName with
  | (err, st) => (err, w.record st (.RemoveBucket bucketName))

/-- Source `S3Client.DeleteBucket`. -/
def DeleteBucket (c : S3Client σ) (bucketName : String) (w : World σ) :
    Option GoError × World σ :=
  match c.deleteObjects bucketName "" w with
  | (none, w1) => c.removeBucket bucketName w1
  | (some _, w1) =>
    match c.deleteObjectsOneByOne bucketName "" w1 with
    | (none, w2) => c.removeBucket bucketName w2
    | (some err, w2) => (some err, w2)

/-- Source `S3Client.DeletePrefix`. -/
def DeletePrefix (c : S3Client σ) (bucketName pfx : String) (w : World σ) :
    Option GoError × World σ :=
  match c.Minio.RemoveObject w.store bucketName pfx "" with
  | (some err, st) =>
    (some (.errorf ("DeletePrefix: failed to delete prefix " ++ pfx ++ ": "
      ++ err.Error)), w.record st (.RemoveObject bucketName pfx ""))
  | (none, st) =>
    match c.deleteObjectsOneByOne bucketName ""
        (w.record st (.RemoveObject bucketName pfx "")) with
    | (none, w2) => c.removeBucket bucketName w2
    | (some err, w2) => (some err, w2)

end S3Client

/-! ## CSI messages and the `csi-common` driver the servers embed -/

/-- Type `csi.ControllerServiceCapability_RPC_Type`. -/
inductive ControllerServiceCapability_RPC_Type where
  | UNKNOWN
  | CREATE_DELETE_VOLUME
  | PUBLISH_UNPUBLISH_VOLUME
  | LIST_VOLUMES
  | GET_CAPACITY
  | CREATE_DELETE_SNAPSHOT
  | LIST_SNAPSHOTS
  | CLONE_VOLUME
  | PUBLISH_READONLY
  | EXPAND_VOLUME
  | LIST_VOLUMES_PUBLISHED_NODES
  | VOLUME_CONDITION
  | GET_VOLUME
  | SINGLE_NODE_MULTI_WRITER
  | MODIFY_VOLUME
deriving DecidableEq

/-- Go `ControllerServiceCapability_RPC_Type.String`: the name of the value. -/
def ControllerServiceCapability_RPC_Type.String :
    ControllerServiceCapability_RPC_Type → String
  | .UNKNOWN => "UNKNOWN"
  | .CREATE_DELETE_VOLUME => "CREATE_DELETE_VOLUME"
  | .PUBLISH_UNPUBLISH_VOLUME => "PUBLISH_UNPUBLISH_VOLUME"
  | .LIST_VOLUMES => "LIST_VOLUMES"
  | .GET_CAPACITY => "GET_CAPACITY"
  | .CREATE_DELETE_SNAPSHOT => "CREATE_DELETE_SNAPSHOT"
  | .LIST_SNAPSHOTS => "LIST_SNAPSHOTS"
  | .CLONE_VOLUME => "CLONE_VOLUME"
  | .PUBLISH_READONLY => "PUBLISH_READONLY"
  | .EXPAND_VOLUME => "EXPAND_VOLUME"
  | .LIST_VOLUMES_PUBLISHED_NODES => "LIST_VOLUMES_PUBLISHED_NODES"
  | .VOLUME_CONDITION => "VOLUME_CONDITION"
  | .GET_VOLUME => "GET_VOLUME"
  | .SINGLE_NODE_MULTI_WRITER => "SINGLE_NODE_MULTI_WRITER"
  | .MODIFY_VOLUME => "MODIFY_VOLUME"

/-- Type `csi.ControllerServiceCapability_RPC`. -/
structure ControllerServiceCapability_RPC where
  Type_ : ControllerServiceCapability_RPC_Type
deriving DecidableEq

/-- Type `csi.ControllerServiceCapability`: its one-of `Type` field is the RPC
variant or nil. -/
structure ControllerServiceCapability where
  Rpc : Option ControllerServiceCapability_RPC
deriving DecidableEq

/-- Go `cap.GetRpc().GetType()`: `UNKNOWN` through a nil. -/
def ControllerServiceCapability.GetRpcType (cap : ControllerServiceCapability) :
    ControllerServiceCapability_RPC_Type :=
  match cap.Rpc with
  | some rpc => rpc.Type_
  | none => .UNKNOWN

/-- Type `csi.VolumeCapability_AccessMode_Mode`. -/
inductive VolumeCapability_AccessMode_Mode where
  | UNKNOWN
  | SINGLE_NODE_WRITER
  | SINGLE_NODE_READER_ONLY
  | MULTI_NODE_READER_ONLY
  | MULTI_NODE_SINGLE_WRITER
  | MULTI_NODE_MULTI_WRITER
  | SINGLE_NODE_SINGLE_WRITER
  | SINGLE_NODE_MULTI_WRITER
deriving DecidableEq

/-- Type `csi.VolumeCapability_AccessMode`. -/
structure VolumeCapability_AccessMode where
  Mode : VolumeCapability_AccessMode_Mode
deriving DecidableEq

/-- Type `csi.VolumeCapability`: the access mode (nil when absent) and the mount
flags of its mount access type. -/
structure VolumeCapability where
  AccessMode : Option VolumeCapability_AccessMode
  MountFlags : List String
deriving DecidableEq

/-- Type `csi.CapacityRange`. -/
structure CapacityRange where
  RequiredBytes : Int
  LimitBytes : Int
deriving DecidableEq

/-- Type `csi.CreateVolumeRequest`; a nil capability slice or capacity range is
`none`. -/
structure CreateVolumeRequest where
  Name : String
  CapacityRange : Option CapacityRange
  VolumeCapabilities : Option (List VolumeCapability)
  Parameters : StrMap
  Secrets : StrMap
deriving DecidableEq

/-- Type `csi.Volume`. -/
structure Volume where
  VolumeId : String
  CapacityBytes : Int
  VolumeContext : StrMap
deriving DecidableEq

/-- Type `csi.CreateVolumeResponse`. -/
structure CreateVolumeResponse where
  Volume : Volume
deriving DecidableEq

/-- Type `csi.DeleteVolumeRequest`. -/
structure DeleteVolumeRequest where
  VolumeId : String
  Secrets : StrMap
deriving DecidableEq

/-- Type `csi.DeleteVolumeResponse`. -/
structure DeleteVolumeResponse where
deriving DecidableEq

/-- Type `common.CSIDriver` of `csi-common`, the field read by
`ValidateControllerServiceRequest`. -/
structure CSIDriver where
  cap : List ControllerServiceCapability
deriving DecidableEq

/-- Method `CSIDriver.ValidateControllerServiceRequest` of `csi-common`: nil for
`UNKNOWN` and for a type among the driver's capabilities, an `InvalidArgument`
status otherwise. -/
def CSIDriver.ValidateControllerServiceRequest (d : CSIDriver)
    (c : ControllerServiceCapability_RPC_Type) : Option GoError :=
  if c = .UNKNOWN then none
  else if d.cap.any (fun cap => decide (c = cap.GetRpcType)) then none
  else some (.status .InvalidArgument c.String)

/-- Source `ControllerServer`: it embeds `*common.DefaultControllerServer`,
whose `Driver` field is the `csi-common` driver. -/
structure ControllerServer where
  Driver : CSIDriver
deriving DecidableEq

/-! ## `driver/controller_server.go` -/

/-- Source `NewControllerServiceCapability`. -/
def NewControllerServiceCapability (cap : ControllerServiceCapability_RPC_Type) :
    ControllerServiceCapability :=
  { Rpc := some { Type_ := cap } }

/-- Source `CreateVolume`, the statements that fix `volumeId`, `bucketName` and
`prefix` from the request name and the parameters (returned in this order). -/
def createVolumeNames (name : String) (params : StrMap) : String × String × String :=
  let volumeId := name
  let bucketName := volumeId
  let pfx := ""
  if params.get "bucket" ≠ "" then
    let bucketName := params.get "bucket"
    let pfx := volumeId
    let volumeId := pathJoin [bucketName, pfx]
    (volumeId, bucketName, pfx)
  else (volumeId, bucketName, pfx)

/-- Source `ControllerServer.CreateVolume`. -/
def ControllerServer.CreateVolume {σ : Type} (env : Env σ) (c : ControllerServer)
    (req : CreateVolumeRequest) (w : World σ) :
    Except GoError CreateVolumeResponse × World σ :=
  match c.Driver.ValidateControllerServiceRequest .CREATE_DELETE_VOLUME with
  | some err => (.error err, w)
  | none =>
  if req.Name.length = 0 then
    (.error (.status .InvalidArgument "CreateVolume: volume ID is missing"), w)
  else
  match createVolumeNames req.Name req.Parameters with
  | (volumeId, bucketName, pfx) =>
  if req.VolumeCapabilities.isNone then
    (.error (.status .InvalidArgument "CreateVolume: volume capabilities is missing"), w)
  else
  let capacityBytes : Int :=
    match req.CapacityRange with
    | some r => r.RequiredBytes
    | none => 0
  match NewClientFromSecrets env req.Secrets with
  | .error err =>
    (.error (.status .Internal
      ("CreateVolume: failed to initialize s3 client: " ++ err.Error)), w)
  | .ok client =>
  match client.IsBucketExist bucketName w with
  | ((_, some err), w1) =>
    (.error (.status .Internal ("CreateVolume: failed to check if bucket " ++ bucketName
      ++ " exists: " ++ err.Error)), w1)
  | ((exits, none), w1) =>
  match (if !exits then client.CreateBucket bucketName w1 else (none, w1)) with
  | (some err, w2) =>
    (.error (.status .Internal ("CreateVolume: failed to create bucket " ++ bucketName
      ++ ": " ++ err.Error)), w2)
  | (none, w2) =>
  match (if pfx ≠ "" then client.CreateBucket pfx w2 else (none, w2)) with
  | (some err, w3) =>
    (.error (.status .Internal ("CreateVolume: failed to create bucket " ++ pfx
      ++ ": " ++ err.Error)), w3)
  | (none, w3) =>
  (.ok ⟨⟨volumeId, capacityBytes, []⟩⟩, w3)

/-- Source `ControllerServer.DeleteVolume`. -/
def ControllerServer.DeleteVolume {σ : Type} (env : Env σ) (c : ControllerServer)
    (req : DeleteVolumeRequest) (w : World σ) :
    Except GoError DeleteVolumeResponse × World σ :=
  let volumeId := req.VolumeId
  match volumeIDToBucketPrefix volumeId with
  | (bucketName, pfx) =>
  if volumeId.length = 0 then
    (.error (.status .InvalidArgument "DeleteVolume: volume ID is missing"), w)
  else
  match c.Driver.ValidateControllerServiceRequest .CREATE_DELETE_VOLUME with
  | some err => (.error err, w)
  | none =>
  match NewClientFromSecrets env req.Secrets with
  | .error err =>
    (.error (.status .Internal
      ("DeleteVolume: failed to initialize s3 client: " ++ err.Error)), w)
  | .ok client =>
  let del : Option GoError × World σ :=
    if pfx ≠ "" then
      client.DeleteBucket bucketName w
    else
      match client.DeletePrefix bucketName pfx w with
      | (some err, w1) =>
        (some (.status .Internal ("DeleteVolume: failed to delete bucket " ++ pfx
          ++ ": " ++ err.Error)), w1)
      | (none, w1) => (none, w1)
  match del with
  | (some deleteErr, w2) => (.error deleteErr, w2)
  | (none, w2) => (.ok {}, w2)

/-- How a Go call ends: it returns a value or panics (a nil pointer
dereference). -/
inductive Run (α : Type) where
  | returned (a : α)
  | panicked (msg : String)
deriving DecidableEq

/-- Type `csi.ValidateVolumeCapabilitiesRequest`; a nil capability slice is
`none`. -/
structure ValidateVolumeCapabilitiesRequest where
  VolumeId : String
  VolumeCapabilities : Option (List VolumeCapability)
  Secrets : StrMap
deriving DecidableEq

/-- Type `csi.ValidateVolumeCapabilitiesResponse`: the confirmed capabilities
(nil when unconfirmed) and the message. -/
structure ValidateVolumeCapabilitiesResponse where
  Confirmed : Option (List VolumeCapability)
  Message : String
deriving DecidableEq

/-- The loop of `ValidateVolumeCapabilities` over the capabilities:
`capability.GetAccessMode().Mode` reads a field through the pointer that the
getter returns, which is nil for a capability without access mode. The result
is whether every capability has the supported mode. -/
def allSingleNodeWriter : List VolumeCapability → Run Bool
  | [] => .returned true
  | capability :: rest =>
    match capability.AccessMode with
    | none => .panicked "invalid memory address or nil pointer dereference"
    | some accessMode =>
      if accessMode.Mode ≠ .SINGLE_NODE_WRITER then .returned false
      else allSingleNodeWriter rest

/-- Source `ControllerServer.ValidateVolumeCapabilities`. -/
def ControllerServer.ValidateVolumeCapabilities {σ : Type} (env : Env σ)
    (_c : ControllerServer) (req : ValidateVolumeCapabilitiesRequest) (w : World σ) :
    Run (Except GoError ValidateVolumeCapabilitiesResponse) × World σ :=
  if req.VolumeId.length = 0 then
    (.returned (.error (.status .InvalidArgument
      "ValidateVolumeCapabilities: volume ID is missing")), w)
  else
  match req.VolumeCapabilities with
  | none =>
    (.returned (.error (.status .InvalidArgument
      "ValidateVolumeCapabilities: volume capabilities is missing")), w)
  | some capabilities =>
  match volumeIDToBucketPrefix req.VolumeId with
  | (bucketName, _) =>
  match NewClientFromSecrets env req.Secrets with
  | .error err =>
    (.returned (.error (.status .Internal
      ("ValidateVolumeCapabilities: failed to initialize s3 client: " ++ err.Error))), w)
  | .ok client =>
  match client.IsBucketExist bucketName w with
  | ((_, some err), w1) =>
    (.returned (.error (.status .Internal
      ("ValidateVolumeCapabilities: failed to check if bucket " ++ bucketName
        ++ " exists: " ++ err.Error))), w1)
  | ((exists_, none), w1) =>
  if !exists_ then
    (.returned (.error (.status .NotFound
      ("ValidateVolumeCapabilities: bucket " ++ bucketName ++ " does not exist"))), w1)
  else
  match allSingleNodeWriter capabilities with
  | .panicked msg => (.panicked msg, w1)
  | .returned false =>
    (.returned (.ok ⟨none, "Only single node writer is supported"⟩), w1)
  | .returned true =>
    (.returned (.ok ⟨some [⟨some ⟨.SINGLE_NODE_WRITER⟩, []⟩], ""⟩), w1)

/-! ## The node: mount table, external commands and files -/

/-- Flags of `os.OpenFile`. -/
inductive OpenFlag where
  | O_RDONLY
  | O_WRONLY
  | O_RDWR
  | O_APPEND
  | O_CREATE
  | O_EXCL
  | O_SYNC
  | O_TRUNC
deriving DecidableEq

/-- A call the node code makes on the operating system: the mount-table probe
`mount.New("").IsLikelyNotMountPoint`, `os.MkdirAll`, the run of an external
command `exec.Command(command, args...).Output()` with the variables added to
the inherited environment, `mount.New("").Unmount`, `time.Sleep`, and the file
calls of `writeS3Pass`. -/
inductive NodeCall where
  | IsLikelyNotMountPoint (path : String)
  | MkdirAll (path : String) (perm : Nat)
  | Output (command : String) (args : List String) (envs : List String)
  | Unmount (path : String)
  | Sleep (d : Int)
  | OpenFile (name : String) (flag : List OpenFlag) (perm : Nat)
  | WriteString (name : String) (content : String)
  | Close (name : String)
deriving DecidableEq

/-- The operating system as the node code uses it, as transitions on a state
`σ`. `Output` returns the bytes of the standard output; `mounted` is the mount
table itself, which the code never reads directly. -/
structure OS (σ : Type) where
  IsLikelyNotMountPoint : σ → String → (Bool × Option GoError) × σ
  IsNotExist : GoError → Bool
  MkdirAll : σ → String → Nat → Option GoError × σ
  Output : σ → String → List String → List String → (List Nat × Option GoError) × σ
  Unmount : σ → String → Option GoError × σ
  Sleep : σ → Int → σ
  Getenv : σ → String → String
  OpenFile : σ → String → List OpenFlag → Nat → Option GoError × σ
  WriteString : σ → String → String → Option GoError × σ
  Close : σ → String → σ
  mounted : σ → String → Bool

/-- The two library functions `getMeta` calls: the tokenizer it builds from its
three regular expressions (find all options, unquote each) and
`strconv.ParseInt(s, 10, 64)` with its error dropped. -/
structure GoLib where
  mountOptions : String → List String
  ParseInt : String → Int

/-- The state of the node together with the log of the calls made on the
operating system, oldest first. -/
structure NodeWorld (σ : Type) where
  state : σ
  calls : List NodeCall
deriving DecidableEq

/-- Record one call and the state it leaves. -/
def NodeWorld.record {σ : Type} (w : NodeWorld σ) (st : σ) (c : NodeCall) : NodeWorld σ :=
  ⟨st, w.calls ++ [c]⟩

/-- Go `time.Millisecond`, in nanoseconds. -/
def Millisecond : Int := 1000000

/-- Go `time.Second`, in nanoseconds. -/
def Second : Int := 1000000000

/-- Go `fmt` verb `%v` on a byte slice: the decimal bytes between brackets. -/
def fmtBytes (out : List Nat) : String :=
  "[" ++ " ".intercalate (out.map toString) ++ "]"

/-! ## `driver/utils/mounter/mounter.go` and `s3_mounter.go` -/

/-- Source `S3Mounter`. -/
structure S3Mounter where
  meta : Metadata
  url : String
  region : String
  pwFileContent : String
deriving DecidableEq

/-- Source `NewS3Mounter`. -/
def NewS3Mounter (meta : Metadata) (cfg : Config) : S3Mounter :=
  { meta := meta
    url := cfg.Endpoint
    region := cfg.Region
    pwFileContent := cfg.AccessKeyID ++ ":" ++ cfg.SecretAccessKey }

/-- Source `NewMounter`: `s3fs` is the only mounter. -/
def NewMounter (meta : Metadata) (cfg : Config) : Except GoError S3Mounter :=
  let mounterType := if meta.Mounter.length = 0 then cfg.Mounter else meta.Mounter
  if mounterType = "s3fs" then .ok (NewS3Mounter meta cfg)
  else .error (.status .InvalidArgument ("Mounter " ++ mounterType ++ " not supported"))

/-- Source `Unmount`. -/
def Unmount {σ : Type} (os : OS σ) (path : String) (w : NodeWorld σ) :
    Option GoError × NodeWorld σ :=
  match os.Unmount w.state path with
  | (some err, st) => (some err, w.record st (.Unmount path))
  | (none, st) => (none, w.record st (.Unmount path))

/-- The loop of source `waitForMount`, cut after `fuel` iterations: `none` when
the loop has not returned by then. -/
def waitLoop {σ : Type} (os : OS σ) (path : String) (timeout interval : Int) :
    Nat → Int → NodeWorld σ → Option (Option GoError) × NodeWorld σ
  | 0, _, w => (none, w)
  | fuel + 1, elapsed, w =>
    match os.IsLikelyNotMountPoint w.state path with
    | ((_, some err), st) => (some (some err), w.record st (.IsLikelyNotMountPoint path))
    | ((notMount, none), st) =>
      if !notMount then (some none, w.record st (.IsLikelyNotMountPoint path))
      else
        let w1 := w.record st (.IsLikelyNotMountPoint path)
        let w2 := w1.record (os.Sleep w1.state interval) (.Sleep interval)
        if elapsed + interval ≥ timeout then
          (some (some (.status .Internal ("Mount: failed to mount " ++ path ++ ": timeout"))),
            w2)
        else waitLoop os path timeout interval fuel (elapsed + interval) w2

/-- Iterations that are always enough for the loop of `waitForMount`: each one
adds the interval to `elapsed`, which starts at 0. -/
def waitFuel (timeout interval : Int) : Nat :=
  (timeout / interval).toNat + 1

/-- Source `waitForMount`. The loop is run with `waitFuel` iterations, by which
it has always returned (`waitLoop_returns`), so the last case never applies. -/
def waitForMount {σ : Type} (os : OS σ) (path : String) (timeout : Int)
    (w : NodeWorld σ) : Option GoError × NodeWorld σ :=
  let interval := 10 * Millisecond
  match waitLoop os path timeout interval (waitFuel timeout interval) 0 w with
  | (some r, w1) => (r, w1)
  | (none, w1) =>
    (some (.status .Internal ("Mount: failed to mount " ++ path ++ ": timeout")), w1)

/-- Source `FuseMount`. -/
def FuseMount {σ : Type} (os : OS σ) (path command : String) (args envs : List String)
    (w : NodeWorld σ) : Option GoError × NodeWorld σ :=
  match os.Output w.state command args envs with
  | ((out, some _), st) =>
    (some (.status .Internal ("Mount: failed to mount " ++ path ++ ": " ++ fmtBytes out)),
      w.record st (.Output command args envs))
  | ((_, none), st) =>
    waitForMount os path (10 * Second) (w.record st (.Output command args envs))

/-- Source `writeS3Pass`. -/
def writeS3Pass {σ : Type} (os : OS σ) (pwFileContent : String) (w : NodeWorld σ) :
    Option GoError × NodeWorld σ :=
  let pwFileName := os.Getenv w.state "HOME" ++ "/.passwd-s3"
  match os.OpenFile w.state pwFileName [.O_RDWR, .O_CREATE] 0o600 with
  | (some err, st) => (some err, w.record st (.OpenFile pwFileName [.O_RDWR, .O_CREATE] 0o600))
  | (none, st) =>
    let w1 := w.record st (.OpenFile pwFileName [.O_RDWR, .O_CREATE] 0o600)
    match os.WriteString w1.state pwFileName pwFileContent with
    | (some err, st2) => (some err, w1.record st2 (.WriteString pwFileName pwFileContent))
    | (none, st2) =>
      let w2 := w1.record st2 (.WriteString pwFileName pwFileContent)
      (none, w2.record (os.Close w2.state pwFileName) (.Close pwFileName))

/-- The argument list `S3Mounter.Mount` builds for `s3fs`. -/
def S3Mounter.args (s : S3Mounter) (target : String) : List String :=
  let args := [s.meta.BucketName ++ ":" ++ s.meta.Prefix, target,
    "-o", "use_path_request_style",
    "-o", "url=" ++ s.url,
    "-o", "allow_other",
    "-o", "mp_umask=000"]
  if s.region ≠ "" then args ++ ["-o", "endpoint=" ++ s.region] else args

/-- Source `S3Mounter.Mount`. -/
def S3Mounter.Mount {σ : Type} (os : OS σ) (s : S3Mounter) (target _volumeID : String)
    (w : NodeWorld σ) : Option GoError × NodeWorld σ :=
  match writeS3Pass os s.pwFileContent w with
  | (some err, w1) => (some err, w1)
  | (none, w1) => FuseMount os target "s3fs" (s.args target) [] w1

/-! ## `driver/node_server.go` -/

/-- Type `csi.NodePublishVolumeRequest`; a nil volume capability is `none`. -/
structure NodePublishVolumeRequest where
  VolumeId : String
  StagingTargetPath : String
  TargetPath : String
  VolumeCapability : Option VolumeCapability
  Readonly : Bool
  Secrets : StrMap
  VolumeContext : StrMap
deriving DecidableEq

/-- Type `csi.NodePublishVolumeResponse`. -/
structure NodePublishVolumeResponse where
deriving DecidableEq

/-- Type `csi.NodeUnpublishVolumeRequest`. -/
structure NodeUnpublishVolumeRequest where
  VolumeId : String
  TargetPath : String
deriving DecidableEq

/-- Type `csi.NodeUnpublishVolumeResponse`. -/
structure NodeUnpublishVolumeResponse where
deriving DecidableEq

/-- Type `csi.NodeStageVolumeRequest`. -/
structure NodeStageVolumeRequest where
  VolumeId : String
  StagingTargetPath : String
  VolumeCapability : Option VolumeCapability
  Secrets : StrMap
  VolumeContext : StrMap
deriving DecidableEq

/-- Type `csi.NodeStageVolumeResponse`. -/
structure NodeStageVolumeResponse where
deriving DecidableEq

/-- Type `csi.NodeUnstageVolumeRequest`. -/
structure NodeUnstageVolumeRequest where
  VolumeId : String
  StagingTargetPath : String
deriving DecidableEq

/-- Type `csi.NodeUnstageVolumeResponse`. -/
structure NodeUnstageVolumeResponse where
deriving DecidableEq

/-- Type `csi.NodeServiceCapability_RPC_Type`. -/
inductive NodeServiceCapability_RPC_Type where
  | UNKNOWN
  | STAGE_UNSTAGE_VOLUME
  | GET_VOLUME_STATS
  | EXPAND_VOLUME
  | VOLUME_CONDITION
  | SINGLE_NODE_MULTI_WRITER
  | VOLUME_MOUNT_GROUP
deriving DecidableEq

/-- Type `csi.NodeGetCapabilitiesResponse`: the RPC types of its capabilities. -/
structure NodeGetCapabilitiesResponse where
  Capabilities : List NodeServiceCapability_RPC_Type
deriving DecidableEq

/-- Source `NodeServer`: it embeds `*common.DefaultNodeServer`. -/
structure NodeServer where
  Driver : CSIDriver
deriving DecidableEq

/-- Source `getMeta`. -/
def getMeta (lib : GoLib) (bucketName pfx : String) (context : StrMap) : Metadata :=
  let mountOptStr := context.get "options"
  let mountOptions := if mountOptStr ≠ "" then lib.mountOptions mountOptStr else []
  let capacity := lib.ParseInt (context.get "capacity")
  { BucketName := bucketName
    Prefix := pfx
    Mounter := context.get "mounter"
    MountOptions := mountOptions
    CapacityBytes := capacity }

/-- Source `checkMount`. -/
def checkMount {σ : Type} (os : OS σ) (targetPath : String) (w : NodeWorld σ) :
    (Bool × Option GoError) × NodeWorld σ :=
  match os.IsLikelyNotMountPoint w.state targetPath with
  | ((notMnt, none), st) =>
    ((notMnt, none), w.record st (.IsLikelyNotMountPoint targetPath))
  | ((_, some err), st) =>
    let w1 := w.record st (.IsLikelyNotMountPoint targetPath)
    if os.IsNotExist err then
      match os.MkdirAll w1.state targetPath 0o750 with
      | (some err2, st2) => ((false, some err2), w1.record st2 (.MkdirAll targetPath 0o750))
      | (none, st2) => ((true, none), w1.record st2 (.MkdirAll targetPath 0o750))
    else ((false, some err), w1)

namespace NodeServer

variable {σ τ : Type}

/-- Source `NodeServer.NodeGetCapabilities`. -/
def NodeGetCapabilities (_n : NodeServer) : Except GoError NodeGetCapabilitiesResponse :=
  .ok ⟨[.STAGE_UNSTAGE_VOLUME]⟩

/-- The part of source `NodePublishVolume` that revives a dead staging mount
(the body of `if notMount`). -/
def revive (env : Env τ) (lib : GoLib) (os : OS σ) (req : NodePublishVolumeRequest)
    (w : NodeWorld σ) : Option GoError × NodeWorld σ :=
  match volumeIDToBucketPrefix req.VolumeId with
  | (bucketName, pfx) =>
  match NewClientFromSecrets env req.Secrets with
  | .error err => (some (.errorf ("failed to initialize S3 client: " ++ err.Error)), w)
  | .ok s3 =>
  let meta := getMeta lib bucketName pfx req.VolumeContext
  match NewMounter meta s3.Config with
  | .error err => (some err, w)
  | .ok mounter => mounter.Mount os req.StagingTargetPath req.VolumeId w

/-- Source `NodeServer.NodePublishVolume`. -/
def NodePublishVolume (env : Env τ) (lib : GoLib) (os : OS σ) (_n : NodeServer)
    (req : NodePublishVolumeRequest) (w : NodeWorld σ) :
    Except GoError NodePublishVolumeResponse × NodeWorld σ :=
  let volumeId := req.VolumeId
  let targetPath := req.TargetPath
  let stagingTargetPath := req.StagingTargetPath
  if req.VolumeCapability.isNone then
    (.error (.status .InvalidArgument "NodePublishVolume: volume capability is missing"), w)
  else if volumeId.length = 0 then
    (.error (.status .InvalidArgument "NodePublishVolume: Volume ID missing in request"), w)
  else if stagingTargetPath.length = 0 then
    (.error (.status .InvalidArgument
      "NodePublishVolume: Staging target path missing in request"), w)
  else if targetPath.length = 0 then
    (.error (.status .InvalidArgument
      "NodePublishVolume: Target path missing in request"), w)
  else
  match checkMount os stagingTargetPath w with
  | ((_, some err), w1) => (.error (.status .Internal err.Error), w1)
  | ((notMount, none), w1) =>
  match (if notMount then revive env lib os req w1 else (none, w1)) with
  | (some err, w2) => (.error err, w2)
  | (none, w2) =>
  match checkMount os targetPath w2 with
  | ((_, some err), w3) => (.error (.status .Internal err.Error), w3)
  | ((notMount, none), w3) =>
  if !notMount then (.ok {}, w3)
  else
  match os.Output w3.state "mount" ["--bind", stagingTargetPath, targetPath] [] with
  | ((out, some _), st) =>
    (.error (.status .Internal ("NodePublishVolume: failed to mount " ++ stagingTargetPath
      ++ " to " ++ targetPath ++ ": " ++ fmtBytes out)),
      w3.record st (.Output "mount" ["--bind", stagingTargetPath, targetPath] []))
  | ((_, none), st) =>
    (.ok {}, w3.record st (.Output "mount" ["--bind", stagingTargetPath, targetPath] []))

/-- Source `NodeServer.NodeUnpublishVolume`. -/
def NodeUnpublishVolume (os : OS σ) (_n : NodeServer) (req : NodeUnpublishVolumeRequest)
    (w : NodeWorld σ) : Except GoError NodeUnpublishVolumeResponse × NodeWorld σ :=
  let volumeID := req.VolumeId
  let targetPath := req.TargetPath
  if volumeID.length = 0 then
    (.error (.status .InvalidArgument "NodeUnpublishVolume: Volume ID missing in request"), w)
  else if targetPath.length = 0 then
    (.error (.status .InvalidArgument
      "NodeUnpublishVolume: Target path missing in request"), w)
  else
  match Unmount os targetPath w with
  | (some err, w1) => (.error (.status .Internal err.Error), w1)
  | (none, w1) => (.ok {}, w1)

/-- Source `NodeServer.NodeStageVolume`. -/
def NodeStageVolume (_os : OS σ) (_n : NodeServer) (_req : NodeStageVolumeRequest)
    (w : NodeWorld σ) : Except GoError NodeStageVolumeResponse × NodeWorld σ :=
  (.error (.status .Unimplemented "NodeStageVolume is not implemented"), w)

/-- Source `NodeServer.NodeUnstageVolume`. -/
def NodeUnstageVolume (_os : OS σ) (_n : NodeServer) (_req : NodeUnstageVolumeRequest)
    (w : NodeWorld σ) : Except GoError NodeUnstageVolumeResponse × NodeWorld σ :=
  (.error (.status .Unimplemented "NodeUnstageVolume is not implemented"), w)

end NodeServer

/-! ## `driver/utils/grpc.go` -/

/-- Go `strings.ToLower`: the string mapped rune by rune through
`unicode.ToLower`, which is the parameter `lower`. -/
def ToLower (lower : Char → Char) (s : String) : String :=
  ⟨s.data.map lower⟩

/-- Go `strings.HasPrefix`. -/
def HasPrefix (s pfx : String) : Bool :=
  pfx.data.isPrefixOf s.data

/-- The text after the first occurrence of `sep` in `s`, empty when `sep` does
not occur. -/
def textAfter (sep s : String) : String :=
  match cutAt sep.data s.data with
  | some (_, b) => ⟨b⟩
  | none => ""

/-- Source `ParseEndpoint`: the protocol, the address and the error. The index
expression `s[1]` panics when the split has a single piece. -/
def ParseEndpoint (lower : Char → Char) (endpoint : String) :
    Run (String × String × Option GoError) :=
  let invalid : Run (String × String × Option GoError) :=
    .returned ("", "", some (.errorf ("invalid endpoint: " ++ endpoint)))
  if HasPrefix (ToLower lower endpoint) "unix://" ||
      HasPrefix (ToLower lower endpoint) "tcp://" then
    match SplitN endpoint "://" 2 with
    | s0 :: s1 :: _ => if s1 ≠ "" then .returned (s0, s1, none) else invalid
    | _ => .panicked "index out of range [1] with length 1"
  else invalid

/-- The lower-casing of the ASCII letters, on which `unicode.ToLower` agrees;
other characters are left as they are. -/
def asciiLower : Char → Char
  | 'A' => 'a'
  | 'B' => 'b'
  | 'C' => 'c'
  | 'D' => 'd'
  | 'E' => 'e'
  | 'F' => 'f'
  | 'G' => 'g'
  | 'H' => 'h'
  | 'I' => 'i'
  | 'J' => 'j'
  | 'K' => 'k'
  | 'L' => 'l'
  | 'M' => 'm'
  | 'N' => 'n'
  | 'O' => 'o'
  | 'P' => 'p'
  | 'Q' => 'q'
  | 'R' => 'r'
  | 'S' => 's'
  | 'T' => 't'
  | 'U' => 'u'
  | 'V' => 'v'
  | 'W' => 'w'
  | 'X' => 'x'
  | 'Y' => 'y'
  | 'Z' => 'z'
  | c => c

/-! ## Observing the call log -/

/-- Whether a call is a `ListObjects`: each deletion pass starts with one. -/
def Call.isListObjects : Call → Bool
  | .ListObjects _ _ _ => true
  | _ => false

/-- Whether a call is a `RemoveBucket`. -/
def Call.isRemoveBucket : Call → Bool
  | .RemoveBucket _ => true
  | _ => false

/-- Whether a call is a `MakeBucket`. -/
def Call.isMakeBucket : Call → Bool
  | .MakeBucket _ => true
  | _ => false

/-- Whether a call is a `PutObject`. -/
def Call.isPutObject : Call → Bool
  | .PutObject _ _ _ => true
  | _ => false

/-- The number of `ListObjects` calls made so far. -/
def World.listings {σ : Type} (w : World σ) : Nat :=
  w.calls.countP Call.isListObjects

/-- The number of `RemoveBucket` calls made so far. -/
def World.bucketRemovals {σ : Type} (w : World σ) : Nat :=
  w.calls.countP Call.isRemoveBucket

/-- The outcomes of removing the objects `objs` of a bucket one after the other,
starting from the store state `st`: one entry per object, `some err` for a
removal that failed. This is the spec's notion "the removals that failed",
against which the counter `removeErrors` of the source is compared. -/
def S3Client.removalResults {σ : Type} (c : S3Client σ) (bucketName : String) :
    List ObjectInfo → σ → List (Option GoError)
  | [], _ => []
  | o :: os, st =>
    (c.Minio.RemoveObject st bucketName o.Key o.VersionID).1 ::
      S3Client.removalResults c bucketName os
        (c.Minio.RemoveObject st bucketName o.Key o.VersionID).2

/-- The number of failed removals among `objs`, starting from the store state
`st`. -/
def S3Client.failedRemovals {σ : Type} (c : S3Client σ) (bucketName : String)
    (objs : List ObjectInfo) (st : σ) : Nat :=
  (S3Client.removalResults c bucketName objs st).countP (fun r => r.isSome)

/-- The commands run so far through `Output`, with their arguments, oldest
first. -/
def NodeWorld.commands {σ : Type} (w : NodeWorld σ) : List (String × List String) :=
  w.calls.filterMap fun c =>
    match c with
    | .Output command args _ => some (command, args)
    | _ => none

/-- The mount-table probes made so far, oldest first. -/
def NodeWorld.probes {σ : Type} (w : NodeWorld σ) : List String :=
  w.calls.filterMap fun c =>
    match c with
    | .IsLikelyNotMountPoint path => some path
    | _ => none

/-- The result and the state of the probe number `j` (from 0) of a wait loop
started in state `st`, when every earlier probe was followed by a sleep. -/
def probeAt {σ : Type} (os : OS σ) (path : String) (interval : Int) :
    Nat → σ → (Bool × Option GoError) × σ
  | 0, st => os.IsLikelyNotMountPoint st path
  | j + 1, st =>
    probeAt os path interval j (os.Sleep (os.IsLikelyNotMountPoint st path).2 interval)

/-- The error `waitForMount` returns on a timeout. -/
def mountTimeout (path : String) : GoError :=
  .status .Internal ("Mount: failed to mount " ++ path ++ ": timeout")

/-- What a wait loop that starts in world `w` with `m` probes left before the
timeout does, stated on its result `r`: it returns success at the first probe
that reports a mount point, the error of the first probe that fails, and the
timeout error after `m` probes that all report "not a mount point"; it always
returns, after at least one and at most `m` probes. -/
def WaitOutcome {σ : Type} (os : OS σ) (path : String) (interval : Int) (m : Nat)
    (w : NodeWorld σ) (r : Option (Option GoError) × NodeWorld σ) : Prop :=
  (∀ n < m, (∀ j < n, (probeAt os path interval j w.state).1 = (true, none)) →
    ((probeAt os path interval n w.state).1 = (false, none) →
      r.1 = some none ∧ r.2.probes = w.probes ++ List.replicate (n + 1) path) ∧
    (∀ b err, (probeAt os path interval n w.state).1 = (b, some err) →
      r.1 = some (some err) ∧ r.2.probes = w.probes ++ List.replicate (n + 1) path)) ∧
  ((∀ j < m, (probeAt os path interval j w.state).1 = (true, none)) →
    r.1 = some (some (mountTimeout path)) ∧
      r.2.probes = w.probes ++ List.replicate m path) ∧
  (r.1 ≠ none ∧
    ∃ n, 1 ≤ n ∧ n ≤ m ∧ r.2.probes = w.probes ++ List.replicate n path)

/-- Source `Driver`, the fields a lifecycle call could reach: the lock registry
and the two servers. The servers hold no reference to the registry. -/
structure Driver where
  VolumeLocks : VolumeLocks
  ControllerServer : ControllerServer
  NodeServer : NodeServer
deriving DecidableEq

/-- The call `d.ControllerServer.CreateVolume(ctx, req)`: the result, the driver
and the store afterwards. -/
def Driver.CreateVolume {σ : Type} (env : Env σ) (d : Driver) (req : CreateVolumeRequest)
    (w : World σ) : Except GoError CreateVolumeResponse × Driver × World σ :=
  match d.ControllerServer.CreateVolume env req w with
  | (r, w1) => (r, d, w1)

/-- The call `d.ControllerServer.DeleteVolume(ctx, req)`. -/
def Driver.DeleteVolume {σ : Type} (env : Env σ) (d : Driver) (req : DeleteVolumeRequest)
    (w : World σ) : Except GoError DeleteVolumeResponse × Driver × World σ :=
  match d.ControllerServer.DeleteVolume env req w with
  | (r, w1) => (r, d, w1)

/-- The call `d.NodeServer.NodePublishVolume(ctx, req)`. -/
def Driver.NodePublishVolume {σ τ : Type} (env : Env τ) (lib : GoLib) (os : OS σ)
    (d : Driver) (req : NodePublishVolumeRequest) (w : NodeWorld σ) :
    Except GoError NodePublishVolumeResponse × Driver × NodeWorld σ :=
  match d.NodeServer.NodePublishVolume env lib os req w with
  | (r, w1) => (r, d, w1)

/-- The call `d.NodeServer.NodeUnpublishVolume(ctx, req)`. -/
def Driver.NodeUnpublishVolume {σ : Type} (os : OS σ) (d : Driver)
    (req : NodeUnpublishVolumeRequest) (w : NodeWorld σ) :
    Except GoError NodeUnpublishVolumeResponse × Driver × NodeWorld σ :=
  match d.NodeServer.NodeUnpublishVolume os req w with
  | (r, w1) => (r, d, w1)

/-! ## A reference object store, kept in memory -/

/-- An object store in memory: whether it can be reached, its buckets with their
objects (key and version), the objects whose removal the store refuses, given
by bucket and key, and how listings resolve the `listErr` race. -/
structure MemStore where
  online : Bool
  buckets : List (String × List (String × String))
  locked : List (String × String)
  eager : Bool
deriving DecidableEq

namespace MemStore

/-- The error of every call on a store that cannot be reached. -/
def offlineErr : GoError := .errorf "dial tcp: connect: connection refused"

/-- The error of a call that names a missing bucket. -/
def noSuchBucket : GoError := .errorf "The specified bucket does not exist"

/-- Whether a bucket of that name exists. -/
def hasBucket (s : MemStore) (b : String) : Bool :=
  s.buckets.any (fun p => p.1 == b)

/-- The objects of a bucket. -/
def objectsOf (s : MemStore) (b : String) : List (String × String) :=
  (s.buckets.lookup b).getD []

/-- Replace the objects of a bucket. -/
def setObjects (s : MemStore) (b : String) (objs : List (String × String)) : MemStore :=
  { s with buckets := s.buckets.map (fun p => if p.1 == b then (b, objs) else p) }

/-- Whether the store refuses to remove that object. -/
def isLocked (s : MemStore) (b key : String) : Bool :=
  s.locked.any (fun p => p.1 == b && p.2 == key)

/-- Remove one object, unless the store refuses. -/
def removeObject (s : MemStore) (b key : String) : Option GoError × MemStore :=
  if !s.online then (some offlineErr, s)
  else if !s.hasBucket b then (some noSuchBucket, s)
  else if s.isLocked b key then (some (.errorf "Object is WORM protected and cannot be overwritten"), s)
  else (none, s.setObjects b ((s.objectsOf b).filter (fun o => o.1 != key)))

/-- Remove the objects of a bulk request one after the other, collecting the
refusals. -/
def removeObjects (b : String) :
    List ObjectInfo → MemStore → List RemoveObjectError × MemStore
  | [], s => ([], s)
  | o :: os, s =>
    let r := s.removeObject b o.Key
    let rest := removeObjects b os r.2
    match r.1 with
    | some err => (⟨o.Key, err⟩ :: rest.1, rest.2)
    | none => rest

/-- The S3 requests on the store in memory. -/
def server : Server MemStore where
  BucketExists := fun s b =>
    if !s.online then ((false, some offlineErr), s) else ((s.hasBucket b, none), s)
  MakeBucket := fun s b =>
    if !s.online then (some offlineErr, s)
    else if s.hasBucket b then
      (some (.errorf "Your previous request to create the named bucket succeeded and you already own it."), s)
    else (none, { s with buckets := s.buckets ++ [(b, [])] })
  PutObject := fun s b key =>
    if !s.online then (some offlineErr, s)
    else if !s.hasBucket b then (some noSuchBucket, s)
    else (none, s.setObjects b ((s.objectsOf b).filter (fun o => o.1 != key) ++ [(key, "")]))
  RemoveBucket := fun s b =>
    if !s.online then (some offlineErr, s)
    else if !s.hasBucket b then (some noSuchBucket, s)
    else if !(s.objectsOf b).isEmpty then
      (some (.errorf "The bucket you tried to delete is not empty"), s)
    else (none, { s with buckets := s.buckets.filter (fun p => p.1 != b) })
  RemoveObject := fun s b key _ => s.removeObject b key
  ListObjects := fun s b pfx _ =>
    if !s.online then (⟨[⟨"", "", some offlineErr⟩], s.eager⟩, s)
    else if !s.hasBucket b then (⟨[⟨"", "", some noSuchBucket⟩], s.eager⟩, s)
    else
      (⟨((s.objectsOf b).filter (fun o => pfx.data.isPrefixOf o.1.data)).map
          (fun o => ⟨o.1, o.2, none⟩), s.eager⟩, s)
  RemoveObjects := fun s b objs => removeObjects b objs s

/-- The minio client of the store in memory. -/
def client : Minio MemStore :=
  minioClient server

/-- An environment whose endpoints all parse and whose client is the one of the
store in memory. -/
def env : Env MemStore where
  urlParse := fun endpoint => .ok ⟨"http", endpoint, ""⟩
  minioNew := fun _ _ _ _ _ => .ok server

end MemStore

/-- A client of the store in memory. -/
def memClient : S3Client MemStore :=
  ⟨⟨"minio", "minio123", "", "http://minio:9000", ""⟩, MemStore.client⟩

/-- A capability list as the orchestrator sends it: one single-node-writer
mount. -/
def writerCaps : Option (List VolumeCapability) :=
  some [⟨some ⟨.SINGLE_NODE_WRITER⟩, []⟩]

/-- The controller of a driver that has registered `CREATE_DELETE_VOLUME` (as
`Driver.Run` does). -/
def controller : ControllerServer :=
  ⟨⟨[NewControllerServiceCapability .CREATE_DELETE_VOLUME]⟩⟩

/-! ## A reference node, kept in memory -/

/-- A node in memory: the home directory, the directories that exist, the mount
points, the FUSE mounts that were started and become visible after that many
more sleeps, the number of sleeps a new FUSE mount takes, the commands and
calls that fail (by name), and the content of the files. -/
structure NodeState where
  home : String
  dirs : List String
  mounts : List String
  pending : List (String × Nat)
  fuseDelay : Nat
  failing : List String
  files : List (String × String)
deriving DecidableEq

namespace NodeState

/-- The error of a probe of a path that does not exist. -/
def enoent : GoError := .errorf "no such file or directory"

/-- The error of a command that exits with a non-zero status. -/
def exitErr : GoError := .errorf "exit status 1"

/-- The error of an unmount of a path that does not exist. -/
def noMountPoint : GoError :=
  .errorf "unmount failed: exit status 32"

/-- Add a mount point. -/
def addMount (s : NodeState) (path : String) : NodeState :=
  if path ∈ s.mounts then s else { s with mounts := s.mounts ++ [path] }

/-- Run an external command: `s3fs` starts a FUSE mount on its second argument,
`mount --bind staging target` makes the target a mount point. -/
def run (s : NodeState) (command : String) (args : List String) : NodeState :=
  match command, args with
  | "s3fs", _ :: target :: _ =>
    if s.fuseDelay = 0 then s.addMount target
    else { s with pending := s.pending ++ [(target, s.fuseDelay)] }
  | "mount", ["--bind", _, target] => s.addMount target
  | _, _ => s

/-- One polling interval passes: the pending FUSE mounts get one step closer,
those that are due become mount points. -/
def tick (s : NodeState) : NodeState :=
  { s with
    mounts := s.mounts ++
      ((s.pending.filter (fun p => p.2 ≤ 1)).map (fun p => p.1)).filter
        (fun p => p ∉ s.mounts)
    pending := (s.pending.filter (fun p => 1 < p.2)).map (fun p => (p.1, p.2 - 1)) }

/-- The content of a file, empty when it does not exist. -/
def content (s : NodeState) (name : String) : String :=
  (s.files.lookup name).getD ""

/-- Write a file. -/
def setContent (s : NodeState) (name content : String) : NodeState :=
  { s with files := s.files.filter (fun f => f.1 != name) ++ [(name, content)] }

/-- The operating system calls on the node in memory. A write goes to the start
of the file and leaves what lies beyond the written bytes. An unmount of a path
that does not exist fails (`umount` finds no mount point); an unmount of a
directory that is not mounted reports no error. -/
def os : OS NodeState where
  IsLikelyNotMountPoint := fun s path =>
    if path ∈ s.mounts then ((false, none), s)
    else if path ∈ s.dirs then ((true, none), s)
    else ((true, some enoent), s)
  IsNotExist := fun err => decide (err = enoent)
  MkdirAll := fun s path _ =>
    if "mkdir" ∈ s.failing then (some (.errorf "permission denied"), s)
    else (none, { s with dirs := s.dirs ++ [path] })
  Output := fun s command args _ =>
    if command ∈ s.failing then (([], some exitErr), s)
    else (([], none), s.run command args)
  Unmount := fun s path =>
    if "umount" ∈ s.failing then (some exitErr, s)
    else if path ∉ s.mounts ∧ path ∉ s.dirs then (some noMountPoint, s)
    else (none, { s with mounts := s.mounts.filter (fun m => m != path) })
  Sleep := fun s _ => s.tick
  Getenv := fun s key => if key = "HOME" then s.home else ""
  OpenFile := fun s name flag _ =>
    if "open" ∈ s.failing then (some (.errorf "permission denied"), s)
    else if (s.files.lookup name).isNone ∧ OpenFlag.O_CREATE ∉ flag then (some enoent, s)
    else if OpenFlag.O_TRUNC ∈ flag ∨ (s.files.lookup name).isNone then
      (none, s.setContent name "")
    else (none, s)
  WriteString := fun s name content =>
    if "write" ∈ s.failing then (some (.errorf "no space left on device"), s)
    else (none, s.setContent name
      ⟨content.data ++ (s.content name).data.drop content.data.length⟩)
  Close := fun s _ => s
  mounted := fun s path => decide (path ∈ s.mounts)

end NodeState

/-- A sample of the library functions of `getMeta`: one option per string, and
capacity 0. -/
def sampleLib : GoLib := ⟨fun s => [s], fun _ => 0⟩

/-- A node server. -/
def nodeServer : NodeServer := ⟨⟨[]⟩⟩

/-- The secrets of a store. -/
def sampleSecrets : StrMap :=
  [("accessKeyID", "minio"), ("secretAccessKey", "minio123"),
   ("endpoint", "http://minio:9000"), ("region", "")]

/-- A publish request for volume `shared/vol-1` with the given volume context. -/
def publishReq (context : StrMap) : NodePublishVolumeRequest :=
  ⟨"shared/vol-1", "/staging", "/target", some ⟨some ⟨.SINGLE_NODE_WRITER⟩, []⟩, false,
    sampleSecrets, context⟩

/-- A node on which `/staging` and `/target` exist, with the given mount points,
where every command succeeds and a FUSE mount is visible at once. -/
def nodeWith (mounts : List String) : NodeWorld NodeState :=
  ⟨⟨"/root", ["/staging", "/target"], mounts, [], 0, [], []⟩, []⟩

/-- A driver whose registry holds the entry of volume `vol-1`. -/
def heldDriver : Driver :=
  ⟨(VolumeLocks.NewVolumeLocks.TryAcquire "vol-1").2, controller, nodeServer⟩

/-! ## Lemmas on the string helpers -/

theorem cutAt_slash_none (s : List Char) : cutAt ['/'] s = none ↔ '/' ∉ s := by
  induction s with
  | nil => simp [cutAt]
  | cons c cs ih =>
    by_cases hc : c = '/'
    · subst hc
      simp [cutAt, List.isPrefixOf]
    · have hc2 : ¬ '/' = c := fun h => hc h.symm
      cases h : cutAt ['/'] cs with
      | none => simp [cutAt, List.isPrefixOf, hc, hc2, h, ih.mp h]
      | some ab =>
        have : '/' ∈ cs := by
          by_contra hn
          rw [ih.mpr hn] at h
          cases h
        simp [cutAt, List.isPrefixOf, hc2, h, this]

theorem cutAt_slash_some (s a b : List Char) (h : cutAt ['/'] s = some (a, b)) :
    '/' ∉ a ∧ s = a ++ '/' :: b := by
  induction s generalizing a with
  | nil => simp [cutAt] at h
  | cons c cs ih =>
    by_cases hc : c = '/'
    · subst hc
      simp [cutAt, List.isPrefixOf] at h
      obtain ⟨rfl, rfl⟩ := h
      simp
    · have hc2 : ¬ '/' = c := fun h => hc h.symm
      cases h2 : cutAt ['/'] cs with
      | none => simp [cutAt, List.isPrefixOf, hc2, h2] at h
      | some ab =>
        obtain ⟨a2, b2⟩ := ab
        simp [cutAt, List.isPrefixOf, hc2, h2] at h
        obtain ⟨rfl, rfl⟩ := h
        obtain ⟨h3, h4⟩ := ih a2 h2
        simp [h3, h4, hc2]

theorem SplitN_slash_two (s : String) :
    SplitN s "/" 2 =
      match cutAt ['/'] s.data with
      | none => [s]
      | some (a, b) => [⟨a⟩, ⟨b⟩] := by
  have h1 : ("/" : String).data = ['/'] := rfl
  simp only [SplitN, h1]
  cases h : cutAt ['/'] s.data with
  | none => simp [genSplit, h]
  | some ab =>
    obtain ⟨a, b⟩ := ab
    simp [genSplit, h]

theorem pathJoin_samples :
    pathJoin ["shared", "vol-1"] = "shared/vol-1" ∧
    pathJoin ["shared", "vol-1/"] = "shared/vol-1" ∧
    pathJoin ["a", "../b"] = "b" ∧
    pathJoin ["a", ".."] = "." ∧
    pathJoin ["/a/", "//b/./c/.."] = "/a/b" ∧
    pathJoin ["", ""] = "" ∧
    pathClean "../../a/../.." = "../../.." ∧
    pathClean "/../a" = "/a" ∧
    pathClean "" = "." := by
  decide

theorem volumeIDToBucketPrefix_samples :
    volumeIDToBucketPrefix "shared/vol-1" = ("shared", "vol-1") ∧
    volumeIDToBucketPrefix "a/b/c" = ("a", "b/c") ∧
    volumeIDToBucketPrefix "abc" = ("abc", "") ∧
    volumeIDToBucketPrefix "" = ("", "") ∧
    volumeIDToBucketPrefix "/x" = ("", "x") := by
  decide

theorem volumeIDToBucketPrefix_no_slash (id : String) (h : '/' ∉ id.data) :
    volumeIDToBucketPrefix id = (id, "") := by
  unfold volumeIDToBucketPrefix
  rw [SplitN_slash_two, (cutAt_slash_none id.data).mpr h]

theorem cutAt_slash_append (a b : List Char) (ha : '/' ∉ a) :
    cutAt ['/'] (a ++ '/' :: b) = some (a, b) := by
  induction a with
  | nil => simp [cutAt, List.isPrefixOf]
  | cons c cs ih =>
    have hc : ¬ '/' = c := fun h => ha (h ▸ List.mem_cons_self _ _)
    have hcs : '/' ∉ cs := fun h => ha (List.mem_cons_of_mem _ h)
    simp [cutAt, List.isPrefixOf, hc, ih hcs]

theorem volumeIDToBucketPrefix_append (b n : String) (hb : '/' ∉ b.data) :
    volumeIDToBucketPrefix (b ++ "/" ++ n) = (b, n) := by
  have hd : (b ++ "/" ++ n).data = b.data ++ '/' :: n.data := by
    simp [String.data_append]
  unfold volumeIDToBucketPrefix
  rw [SplitN_slash_two, hd, cutAt_slash_append _ _ hb]

theorem foldl_cleanStep_real (rooted : Bool) (ls stack : List (List Char))
    (h : ∀ e ∈ ls, isRealElem e = true) :
    ls.foldl (cleanStep rooted) stack = ls.reverse ++ stack := by
  induction ls generalizing stack with
  | nil => simp
  | cons e rest ih =>
    have he := h e (List.mem_cons_self _ _)
    simp only [isRealElem, decide_eq_true_eq] at he
    have hstep : cleanStep rooted stack e = e :: stack := by
      simp [cleanStep, he.1, he.2.1, he.2.2]
    rw [List.foldl_cons, hstep, ih _ (fun x hx => h x (List.mem_cons_of_mem _ hx))]
    simp

theorem cleanList_of_real (p : List Char)
    (h : ∀ e ∈ p.splitOn '/', isRealElem e = true) : cleanList p = p := by
  have hne : p ≠ [] := by
    intro hp
    subst hp
    have := h [] (by simp [List.splitOn_nil])
    simp [isRealElem] at this
  have hroot : ¬ p.head? = some '/' := by
    intro hh
    cases p with
    | nil => exact hne rfl
    | cons c cs =>
      simp at hh
      subst hh
      have hs : ('/' :: cs).splitOn '/' = [] :: cs.splitOn '/' := by
        simp [List.splitOn]
      have := h [] (by rw [hs]; simp)
      simp [isRealElem] at this
  unfold cleanList
  simp only [hne, if_false, hroot, decide_False, Bool.false_eq_true]
  rw [foldl_cleanStep_real _ _ _ h]
  simp [List.intercalate_splitOn, hne]

theorem splitOn_slash_append (a b : List Char) (ha : '/' ∉ a) :
    (a ++ '/' :: b).splitOn '/' = a :: b.splitOn '/' := by
  have := List.splitOnP_first (fun x => x == '/') a
    (by intro x hx; simp; intro h; exact ha (h ▸ hx)) '/' (by simp) b
  simpa [List.splitOn] using this

theorem pathJoin_two (b n : String) (hb : IsName b) (hn : IsCleanRel n) :
    pathJoin [b, n] = b ++ "/" ++ n := by
  have hbne : b.data ≠ [] := by
    have := hb.2
    simp only [isRealElem, decide_eq_true_eq] at this
    exact this.1
  have hb0 : b ≠ "" := fun h => hbne (by rw [h])
  have hnd : n.data ≠ [] := by
    intro h0
    have := hn [] (by rw [h0]; simp [List.splitOn_nil])
    simp [isRealElem] at this
  have hnne : n ≠ "" := fun h => hnd (by rw [h])
  have hlen : b.length ≠ 0 := by
    show b.data.length ≠ 0
    exact fun h => hbne (List.length_eq_zero.mp h)
  have hj : ("/" : String).intercalate [b, n] = b ++ "/" ++ n := by
    rfl
  have hd : (b ++ "/" ++ n).data = b.data ++ '/' :: n.data := by
    simp [String.data_append]
  unfold pathJoin
  simp only [List.map_cons, List.map_nil, List.sum_cons, List.sum_nil, add_zero,
    Nat.add_eq_zero, hlen, false_and, if_false]
  simp only [List.filter, hb0, hnne, ne_eq, not_false_eq_true, decide_True, hj]
  unfold pathClean
  apply String.ext
  simp only [hd]
  apply cleanList_of_real
  rw [splitOn_slash_append _ _ hb.1]
  intro e he
  rcases List.mem_cons.mp he with h1 | h1
  · rw [h1]; exact hb.2
  · exact hn e h1

/-! ## Lemmas on the call log of the deletion passes -/

theorem foldl_removeOne_calls {σ : Type} (c : S3Client σ) (b : String)
    (objs : List ObjectInfo) (acc : Nat × World σ) :
    (objs.foldl (S3Client.removeOne c b) acc).2.calls =
      acc.2.calls ++ objs.map (fun o => Call.RemoveObject b o.Key o.VersionID) := by
  induction objs generalizing acc with
  | nil => simp
  | cons o rest ih =>
    rw [List.foldl_cons, ih]
    unfold S3Client.removeOne
    split <;> simp [World.record]

theorem countP_removeObject_calls (p : Call → Bool) (b : String)
    (objs : List ObjectInfo) (hp : ∀ k v, p (Call.RemoveObject b k v) = false) :
    (objs.map (fun o => Call.RemoveObject b o.Key o.VersionID)).countP p = 0 := by
  induction objs with
  | nil => simp
  | cons o rest ih => simp [List.countP_cons, hp, ih]

theorem deleteObjects_counts {σ : Type} (c : S3Client σ) (b pfx : String)
    (w : World σ) :
    (c.deleteObjects b pfx w).2.listings = w.listings + 1 ∧
    (c.deleteObjects b pfx w).2.bucketRemovals = w.bucketRemovals := by
  unfold S3Client.deleteObjects
  cases hl : c.Minio.ListObjects w.store b pfx true with
  | mk listing st =>
    dsimp only
    cases hs : S3Client.listErrSeen listing 0 with
    | some e =>
      simp [World.listings, World.bucketRemovals, World.record, List.countP_append,
        Call.isListObjects, Call.isRemoveBucket]
    | none =>
      dsimp only
      split <;>
        simp [World.listings, World.bucketRemovals, World.record, List.countP_append,
          Call.isListObjects, Call.isRemoveBucket]

theorem deleteObjectsOneByOne_counts {σ : Type} (c : S3Client σ) (b pfx : String)
    (w : World σ) :
    (c.deleteObjectsOneByOne b pfx w).2.listings = w.listings + 1 ∧
    (c.deleteObjectsOneByOne b pfx w).2.bucketRemovals = w.bucketRemovals := by
  unfold S3Client.deleteObjectsOneByOne
  cases hl : c.Minio.ListObjects w.store b pfx true with
  | mk listing st =>
    dsimp only
    cases hs : S3Client.listErrSeen listing 16 with
    | some e =>
      simp [World.listings, World.bucketRemovals, World.record, List.countP_append,
        Call.isListObjects, Call.isRemoveBucket]
    | none =>
      dsimp only
      have hcalls := foldl_removeOne_calls c b (S3Client.forwarded listing)
        (0, w.record st (.ListObjects b pfx true))
      have h1 := countP_removeObject_calls Call.isListObjects b
        (S3Client.forwarded listing) (by intro k v; rfl)
      have h2 := countP_removeObject_calls Call.isRemoveBucket b
        (S3Client.forwarded listing) (by intro k v; rfl)
      cases hfold : List.foldl (c.removeOne b) (0, w.record st (.ListObjects b pfx true))
          (S3Client.forwarded listing) with
      | mk removeErrors w2 =>
        rw [hfold] at hcalls
        simp only [World.record] at hcalls
        dsimp only
        split <;>
          simp [World.listings, World.bucketRemovals, hcalls, List.countP_append, h1, h2,
            Call.isListObjects, Call.isRemoveBucket]

theorem removeBucket_counts {σ : Type} (c : S3Client σ) (b : String) (w : World σ) :
    (c.removeBucket b w).2.listings = w.listings ∧
    (c.removeBucket b w).2.bucketRemovals = w.bucketRemovals + 1 := by
  unfold S3Client.removeBucket
  simp [World.listings, World.bucketRemovals, World.record, List.countP_append,
    Call.isListObjects, Call.isRemoveBucket]

theorem foldl_removeOne_count {σ : Type} (c : S3Client σ) (b : String)
    (objs : List ObjectInfo) (acc : Nat × World σ) :
    (objs.foldl (S3Client.removeOne c b) acc).1 =
      acc.1 + S3Client.failedRemovals c b objs acc.2.store := by
  induction objs generalizing acc with
  | nil => simp [S3Client.failedRemovals, S3Client.removalResults]
  | cons o rest ih =>
    rw [List.foldl_cons, ih]
    unfold S3Client.removeOne
    cases h : c.Minio.RemoveObject acc.2.store b o.Key o.VersionID with
    | mk e st =>
      cases e with
      | none =>
        simp [S3Client.failedRemovals, S3Client.removalResults, h, World.record]
      | some err =>
        simp [S3Client.failedRemovals, S3Client.removalResults, h, World.record]
        omega

theorem forwarded_of_no_error (l : Listing) (h : ∀ o ∈ l.entries, o.Err = none) :
    S3Client.forwarded l = l.entries ∧ S3Client.listErrOf l = none := by
  constructor
  · unfold S3Client.forwarded
    apply List.takeWhile_eq_self_iff.mpr
    intro o ho
    simp [h o ho]
  · unfold S3Client.listErrOf
    have : l.entries.find? (fun o => o.Err.isSome) = none := by
      apply List.find?_eq_none.mpr
      intro o ho
      simp [h o ho]
    simp [this]

/-! ## Lemmas on the wait loop -/

theorem probes_record_probe {σ : Type} (w : NodeWorld σ) (st : σ) (path : String) :
    (w.record st (.IsLikelyNotMountPoint path)).probes = w.probes ++ [path] := by
  simp [NodeWorld.probes, NodeWorld.record, List.filterMap_append]

theorem probes_record_sleep {σ : Type} (w : NodeWorld σ) (st : σ) (d : Int) :
    (w.record st (.Sleep d)).probes = w.probes := by
  simp [NodeWorld.probes, NodeWorld.record, List.filterMap_append]

theorem waitLoop_returns_aux {σ : Type} (os : OS σ) (path : String)
    (timeout interval : Int) :
    ∀ (fuel : Nat) (elapsed : Int) (w : NodeWorld σ), 1 ≤ fuel →
      timeout - elapsed ≤ fuel * interval →
      (waitLoop os path timeout interval fuel elapsed w).1 ≠ none := by
  intro fuel
  induction fuel with
  | zero => intro _ _ h; omega
  | succ f ih =>
    intro elapsed w _ hb
    unfold waitLoop
    cases hp : os.IsLikelyNotMountPoint w.state path with
    | mk res st =>
      obtain ⟨notMount, e⟩ := res
      cases e with
      | some err => simp
      | none =>
        cases notMount with
        | false => simp
        | true =>
          simp only [Bool.not_true, Bool.false_eq_true, if_false]
          split
          · simp
          · rename_i hlt
            have hlt2 : elapsed + interval < timeout := by omega
            have hb2 : timeout - elapsed ≤ (f : Int) * interval + interval := by
              have : ((f + 1 : Nat) : Int) * interval = (f : Int) * interval + interval := by
                push_cast; ring
              rw [this] at hb; exact hb
            have hf : 1 ≤ f := by
              rcases Nat.eq_zero_or_pos f with h0 | h0
              · subst h0
                simp at hb2
                omega
              · exact h0
            apply ih
            · exact hf
            · omega

theorem waitLoop_returns {σ : Type} (os : OS σ) (path : String) (timeout : Int)
    (w : NodeWorld σ) :
    (waitLoop os path timeout (10 * Millisecond)
      (waitFuel timeout (10 * Millisecond)) 0 w).1 ≠ none := by
  have hi : (0 : Int) < 10 * Millisecond := by decide
  apply waitLoop_returns_aux os path timeout (10 * Millisecond)
  · unfold waitFuel; omega
  · unfold waitFuel
    have h1 := Int.lt_ediv_add_one_mul_self timeout hi
    have h2 := Int.self_le_toNat (timeout / (10 * Millisecond))
    have h3 : (timeout / (10 * Millisecond) + 1) * (10 * Millisecond) ≤
        (((timeout / (10 * Millisecond)).toNat + 1 : Nat) : Int) * (10 * Millisecond) := by
      apply Int.mul_le_mul_of_nonneg_right _ (le_of_lt hi)
      push_cast
      omega
    omega

theorem waitLoop_outcome {σ : Type} (os : OS σ) (path : String) (interval : Int)
    (hi : 0 < interval) (k : Nat) :
    ∀ (m e fuel : Nat) (w : NodeWorld σ), e + m = k → 1 ≤ m → m ≤ fuel →
      WaitOutcome os path interval m w
        (waitLoop os path (k * interval) interval fuel (e * interval) w) := by
  intro m
  induction m with
  | zero => intro _ _ _ _ h; omega
  | succ m ih =>
    intro e fuel w hek _ hfuel
    obtain ⟨f, rfl⟩ : ∃ f, fuel = f + 1 := ⟨fuel - 1, by omega⟩
    unfold waitLoop
    cases hp : os.IsLikelyNotMountPoint w.state path with
    | mk res st =>
      obtain ⟨notMount, err⟩ := res
      have h0 : (probeAt os path interval 0 w.state).1 = (notMount, err) := by
        simp [probeAt, hp]
      cases err with
      | some err =>
        -- the first probe fails
        dsimp only
        refine ⟨?_, ?_, ?_⟩
        · intro n _ hq
          rcases Nat.eq_zero_or_pos n with hn | hn
          · subst hn
            refine ⟨fun h => ?_, fun b e2 h => ?_⟩
            · rw [h0] at h; simp at h
            · rw [h0] at h
              simp at h
              simp [h.2, probes_record_probe]
          · have := hq 0 hn
            rw [h0] at this; simp at this
        · intro hq
          have := hq 0 (by omega)
          rw [h0] at this; simp at this
        · exact ⟨by simp, 1, by omega, by omega, by simp [probes_record_probe]⟩
      | none =>
        cases notMount with
        | false =>
          -- the first probe reports a mount point
          simp only [Bool.not_false, if_true]
          refine ⟨?_, ?_, ?_⟩
          · intro n _ hq
            rcases Nat.eq_zero_or_pos n with hn | hn
            · subst hn
              refine ⟨fun _ => ?_, fun b e2 h => ?_⟩
              · simp [probes_record_probe]
              · rw [h0] at h; simp at h
            · have := hq 0 hn
              rw [h0] at this; simp at this
          · intro hq
            have := hq 0 (by omega)
            rw [h0] at this; simp at this
          · exact ⟨by simp, 1, by omega, by omega, by simp [probes_record_probe]⟩
        | true =>
          -- the first probe reports "not a mount point": sleep and go on
          simp only [Bool.not_true, Bool.false_eq_true, if_false]
          have hstep : ((e : Int) * interval + interval ≥ (k : Int) * interval) ↔ m = 0 := by
            have hk : (k : Int) = e + m + 1 := by omega
            constructor
            · intro h
              rw [hk] at h
              have : ((e : Int) + m + 1) * interval =
                  e * interval + interval + m * interval := by ring
              rw [this] at h
              have hm : (m : Int) * interval ≤ 0 := by omega
              by_contra hne
              have hpos : (0 : Int) < m := by omega
              have := Int.mul_pos hpos hi
              omega
            · intro h
              subst h
              rw [hk]
              have : ((e : Int) + (0 : Nat) + 1) * interval = e * interval + interval := by
                push_cast; ring
              omega
          rcases Nat.eq_zero_or_pos m with hm | hm
          · -- this was the last probe before the timeout
            subst hm
            rw [if_pos (hstep.mpr rfl)]
            refine ⟨?_, ?_, ?_⟩
            · intro n hn hq
              have hn0 : n = 0 := by omega
              subst hn0
              refine ⟨fun h => ?_, fun b e2 h => ?_⟩
              · rw [h0] at h; simp at h
              · rw [h0] at h; simp at h
            · intro _
              simp [mountTimeout, probes_record_probe, probes_record_sleep]
            · exact ⟨by simp, 1, by omega, by omega,
                by simp [probes_record_probe, probes_record_sleep]⟩
          · have hnot : ¬ ((e : Int) * interval + interval ≥ (k : Int) * interval) := by
              intro h
              have := hstep.mp h
              omega
            rw [if_neg hnot]
            have hcast : (e : Int) * interval + interval = ((e + 1 : Nat) : Int) * interval := by
              push_cast; ring
            rw [hcast]
            have hrec := ih (e + 1) f
              ((w.record st (.IsLikelyNotMountPoint path)).record
                (os.Sleep (w.record st (.IsLikelyNotMountPoint path)).state interval)
                (.Sleep interval))
              (by omega) hm (by omega)
            have hst : ∀ j, probeAt os path interval (j + 1) w.state =
                probeAt os path interval j
                  ((w.record st (.IsLikelyNotMountPoint path)).record
                    (os.Sleep (w.record st (.IsLikelyNotMountPoint path)).state interval)
                    (.Sleep interval)).state := by
              intro j
              simp [probeAt, hp, NodeWorld.record]
            have hpr : ((w.record st (.IsLikelyNotMountPoint path)).record
                (os.Sleep (w.record st (.IsLikelyNotMountPoint path)).state interval)
                (.Sleep interval)).probes = w.probes ++ [path] := by
              simp [probes_record_probe, probes_record_sleep]
            obtain ⟨hA, hB, hC1, hC2⟩ := hrec
            refine ⟨?_, ?_, ?_⟩
            · intro n hn hq
              rcases Nat.eq_zero_or_pos n with hn0 | hn0
              · subst hn0
                refine ⟨fun h => ?_, fun b e2 h => ?_⟩
                · rw [h0] at h; simp at h
                · rw [h0] at h; simp at h
              · obtain ⟨n', rfl⟩ : ∃ n', n = n' + 1 := ⟨n - 1, by omega⟩
                have hq' : ∀ j < n', (probeAt os path interval j _).1 = (true, none) :=
                  fun j hj => by rw [← hst j]; exact hq (j + 1) (by omega)
                have := hA n' (by omega) hq'
                rw [← hst n'] at this
                refine ⟨fun h => ?_, fun b e2 h => ?_⟩
                · have h2 := this.1 h
                  refine ⟨h2.1, ?_⟩
                  rw [h2.2, hpr, List.append_assoc]
                  simp [List.replicate_succ]
                · have h2 := this.2 b e2 h
                  refine ⟨h2.1, ?_⟩
                  rw [h2.2, hpr, List.append_assoc]
                  simp [List.replicate_succ]
            · intro hq
              have hq' : ∀ j < m, (probeAt os path interval j _).1 = (true, none) :=
                fun j hj => by rw [← hst j]; exact hq (j + 1) (by omega)
              have h2 := hB hq'
              refine ⟨h2.1, ?_⟩
              rw [h2.2, hpr, List.append_assoc]
              simp [List.replicate_succ]
            · obtain ⟨n, hn1, hn2, hn3⟩ := hC2
              refine ⟨hC1, n + 1, by omega, by omega, ?_⟩
              rw [hn3, hpr, List.append_assoc]
              simp [List.replicate_succ]

/-! ## Lemmas on the commands run by the mounter -/

theorem commands_record_output {σ : Type} (w : NodeWorld σ) (st : σ) (command : String)
    (args envs : List String) :
    (w.record st (.Output command args envs)).commands = w.commands ++ [(command, args)] := by
  simp [NodeWorld.commands, NodeWorld.record, List.filterMap_append]

theorem commands_record_other {σ : Type} (w : NodeWorld σ) (st : σ) (c : NodeCall)
    (hc : ∀ command args envs, c ≠ .Output command args envs) :
    (w.record st c).commands = w.commands := by
  cases c with
  | Output command args envs => exact absurd rfl (hc command args envs)
  | _ => simp [NodeWorld.commands, NodeWorld.record, List.filterMap_append]

theorem waitLoop_commands {σ : Type} (os : OS σ) (path : String) (timeout interval : Int) :
    ∀ (fuel : Nat) (elapsed : Int) (w : NodeWorld σ),
      (waitLoop os path timeout interval fuel elapsed w).2.commands = w.commands := by
  intro fuel
  induction fuel with
  | zero => intro _ _; rfl
  | succ f ih =>
    intro elapsed w
    unfold waitLoop
    cases hp : os.IsLikelyNotMountPoint w.state path with
    | mk res st =>
      obtain ⟨notMount, e⟩ := res
      cases e with
      | some err => simp [commands_record_other]
      | none =>
        cases notMount with
        | false => simp [commands_record_other]
        | true =>
          simp only [Bool.not_true, Bool.false_eq_true, if_false]
          split
          · simp [commands_record_other]
          · rw [ih]
            simp [commands_record_other]

theorem waitForMount_commands {σ : Type} (os : OS σ) (path : String) (timeout : Int)
    (w : NodeWorld σ) : (waitForMount os path timeout w).2.commands = w.commands := by
  have h := waitLoop_commands os path timeout (10 * Millisecond)
    (waitFuel timeout (10 * Millisecond)) 0 w
  unfold waitForMount
  cases hl : waitLoop os path timeout (10 * Millisecond)
      (waitFuel timeout (10 * Millisecond)) 0 w with
  | mk o w1 =>
    rw [hl] at h
    cases o <;> simpa [hl] using h

theorem writeS3Pass_commands {σ : Type} (os : OS σ) (pwFileContent : String)
    (w : NodeWorld σ) : (writeS3Pass os pwFileContent w).2.commands = w.commands := by
  unfold writeS3Pass
  dsimp only
  split
  · simp [commands_record_other]
  · split <;> simp [commands_record_other]

theorem fuseMount_commands {σ : Type} (os : OS σ) (path command : String)
    (args envs : List String) (w : NodeWorld σ) :
    (FuseMount os path command args envs w).2.commands = w.commands ++ [(command, args)] := by
  unfold FuseMount
  split
  · simp [commands_record_output]
  · rw [waitForMount_commands, commands_record_output]

theorem length_eq_zero_iff (s : String) : s.length = 0 ↔ s = "" := by
  constructor
  · intro h
    have hd : s.data = [] := List.length_eq_zero.mp h
    exact String.ext hd
  · intro h
    rw [h]
    rfl

theorem S3Mounter.args_eq (meta : Metadata) (cfg : Config) (target : String) :
    (NewS3Mounter meta cfg).args target =
      [meta.BucketName ++ ":" ++ meta.Prefix, target,
        "-o", "use_path_request_style",
        "-o", "url=" ++ cfg.Endpoint,
        "-o", "allow_other",
        "-o", "mp_umask=000"] ++
      (if cfg.Region ≠ "" then ["-o", "endpoint=" ++ cfg.Region] else []) := by
  by_cases hr : cfg.Region = "" <;> simp [S3Mounter.args, NewS3Mounter, hr]

theorem newMounter_s3fs (meta : Metadata) (cfg : Config) (h : meta.Mounter = "s3fs") :
    NewMounter meta cfg = .ok (NewS3Mounter meta cfg) := by
  have hl : ¬ ("s3fs" : String).length = 0 := by decide
  unfold NewMounter
  simp only [h, hl, if_false, if_true]

/-! ## Lemmas on `ParseEndpoint` -/

theorem SplitN_scheme_two (s : String) :
    SplitN s "://" 2 =
      match cutAt [':', '/', '/'] s.data with
      | none => [s]
      | some (a, b) => [⟨a⟩, ⟨b⟩] := by
  have h1 : ("://" : String).data = [':', '/', '/'] := rfl
  simp only [SplitN, h1]
  cases h : cutAt [':', '/', '/'] s.data with
  | none => simp [genSplit, h]
  | some ab =>
    obtain ⟨a, b⟩ := ab
    simp [genSplit, h]

theorem cutAt_scheme (p rest : List Char) (hp : ':' ∉ p) :
    cutAt [':', '/', '/'] (p ++ ':' :: '/' :: '/' :: rest) = some (p, rest) := by
  induction p with
  | nil => simp [cutAt, List.isPrefixOf]
  | cons c cs ih =>
    have hc : ¬ ':' = c := fun h => hp (h ▸ List.mem_cons_self _ _)
    have hcs : ':' ∉ cs := fun h => hp (List.mem_cons_of_mem _ h)
    simp [cutAt, List.isPrefixOf, hc, ih hcs]

theorem hasPrefix_unix (lower : Char → Char) (hcolon : ∀ c, lower c = ':' ↔ c = ':')
    (hslash : ∀ c, lower c = '/' ↔ c = '/') (e : String)
    (h : HasPrefix (ToLower lower e) "unix://" = true) :
    ∃ p rest, e.data = p ++ ':' :: '/' :: '/' :: rest ∧ ':' ∉ p ∧
      p.map lower = ['u', 'n', 'i', 'x'] := by
  have hd : ("unix://" : String).data = ['u', 'n', 'i', 'x', ':', '/', '/'] := rfl
  unfold HasPrefix ToLower at h
  rw [hd] at h
  rcases hdata : e.data with _ | ⟨c1, _ | ⟨c2, _ | ⟨c3, _ | ⟨c4, _ | ⟨c5, _ | ⟨c6, _ | ⟨c7, rest⟩⟩⟩⟩⟩⟩⟩ <;>
    rw [hdata] at h <;> simp [List.isPrefixOf] at h
  obtain ⟨h1, h2, h3, h4, h5, h6, h7⟩ := h
  have e5 : c5 = ':' := (hcolon c5).mp h5.symm
  have e6 : c6 = '/' := (hslash c6).mp h6.symm
  have e7 : c7 = '/' := (hslash c7).mp h7.symm
  have n1 : ¬ ':' = c1 := fun hc => by
    have := (hcolon c1).mpr hc.symm; rw [this] at h1; exact absurd h1 (by decide)
  have n2 : ¬ ':' = c2 := fun hc => by
    have := (hcolon c2).mpr hc.symm; rw [this] at h2; exact absurd h2 (by decide)
  have n3 : ¬ ':' = c3 := fun hc => by
    have := (hcolon c3).mpr hc.symm; rw [this] at h3; exact absurd h3 (by decide)
  have n4 : ¬ ':' = c4 := fun hc => by
    have := (hcolon c4).mpr hc.symm; rw [this] at h4; exact absurd h4 (by decide)
  refine ⟨[c1, c2, c3, c4], rest, by simp [e5, e6, e7], by simp [n1, n2, n3, n4], ?_⟩
  simp [← h1, ← h2, ← h3, ← h4]

theorem hasPrefix_tcp (lower : Char → Char) (hcolon : ∀ c, lower c = ':' ↔ c = ':')
    (hslash : ∀ c, lower c = '/' ↔ c = '/') (e : String)
    (h : HasPrefix (ToLower lower e) "tcp://" = true) :
    ∃ p rest, e.data = p ++ ':' :: '/' :: '/' :: rest ∧ ':' ∉ p ∧
      p.map lower = ['t', 'c', 'p'] := by
  have hd : ("tcp://" : String).data = ['t', 'c', 'p', ':', '/', '/'] := rfl
  unfold HasPrefix ToLower at h
  rw [hd] at h
  rcases hdata : e.data with _ | ⟨c1, _ | ⟨c2, _ | ⟨c3, _ | ⟨c5, _ | ⟨c6, _ | ⟨c7, rest⟩⟩⟩⟩⟩⟩ <;>
    rw [hdata] at h <;> simp [List.isPrefixOf] at h
  obtain ⟨h1, h2, h3, h5, h6, h7⟩ := h
  have e5 : c5 = ':' := (hcolon c5).mp h5.symm
  have e6 : c6 = '/' := (hslash c6).mp h6.symm
  have e7 : c7 = '/' := (hslash c7).mp h7.symm
  have n1 : ¬ ':' = c1 := fun hc => by
    have := (hcolon c1).mpr hc.symm; rw [this] at h1; exact absurd h1 (by decide)
  have n2 : ¬ ':' = c2 := fun hc => by
    have := (hcolon c2).mpr hc.symm; rw [this] at h2; exact absurd h2 (by decide)
  have n3 : ¬ ':' = c3 := fun hc => by
    have := (hcolon c3).mpr hc.symm; rw [this] at h3; exact absurd h3 (by decide)
  refine ⟨[c1, c2, c3], rest, by simp [e5, e6, e7], by simp [n1, n2, n3], ?_⟩
  simp [← h1, ← h2, ← h3]

theorem parseEndpoint_of_scheme (lower : Char → Char) (e : String) (p rest : List Char)
    (hpre : HasPrefix (ToLower lower e) "unix://" = true ∨
      HasPrefix (ToLower lower e) "tcp://" = true)
    (hdata : e.data = p ++ ':' :: '/' :: '/' :: rest) (hp : ':' ∉ p) :
    textAfter "://" e = ⟨rest⟩ ∧
    ParseEndpoint lower e =
      (if rest ≠ [] then .returned (⟨p⟩, ⟨rest⟩, none)
       else .returned ("", "", some (.errorf ("invalid endpoint: " ++ e)))) := by
  have hsep : ("://" : String).data = [':', '/', '/'] := rfl
  have hcut := cutAt_scheme p rest hp
  rw [← hdata] at hcut
  constructor
  · simp [textAfter, hsep, hcut]
  · have hor : (HasPrefix (ToLower lower e) "unix://" ||
        HasPrefix (ToLower lower e) "tcp://") = true := by
      rcases hpre with h | h <;> simp [h]
    unfold ParseEndpoint
    simp only [hor, if_true, SplitN_scheme_two, hcut]
    have hne : ((⟨rest⟩ : String) ≠ "") ↔ rest ≠ [] := by
      constructor
      · intro h hr
        exact h (by rw [hr])
      · intro h hs
        exact h (congrArg String.data hs)
    by_cases hr : rest = []
    · subst hr
      simp
    · have h1 : (⟨rest⟩ : String) ≠ "" := hne.mpr hr
      simp [h1, hr]

theorem asciiLower_colon (c : Char) : asciiLower c = ':' ↔ c = ':' := by
  constructor
  · intro h
    unfold asciiLower at h
    split at h <;> first | exact h | exact absurd h (by decide)
  · intro h
    subst h
    decide

theorem asciiLower_slash (c : Char) : asciiLower c = '/' ↔ c = '/' := by
  constructor
  · intro h
    unfold asciiLower at h
    split at h <;> first | exact h | exact absurd h (by decide)
  · intro h
    subst h
    decide

/-! ## Lemmas on the names the minio client accepts -/

theorem matchName_spec (edge mid : Char → Bool) (s : List Char)
    (hem : ∀ c, edge c = true → mid c = true) (h : matchName edge mid s = true) :
    (∀ c ∈ s, mid c = true) ∧ 3 ≤ s.length := by
  cases s with
  | nil => simp [matchName] at h
  | cons first rest =>
    unfold matchName at h
    simp only at h
    cases hl : rest.getLast? with
    | none => simp [hl] at h
    | some last =>
      simp only [hl, Bool.and_eq_true, decide_eq_true_eq, List.all_eq_true] at h
      obtain ⟨⟨⟨⟨h1, h2⟩, h3⟩, h4⟩, _⟩ := h
      have hrest : rest = rest.dropLast ++ [last] := by
        have := List.dropLast_append_getLast? last (by simpa using hl)
        exact this.symm
      constructor
      · intro c hc
        rcases List.mem_cons.mp hc with hc | hc
        · subst hc; exact hem _ h1
        · rw [hrest] at hc
          rcases List.mem_append.mp hc with hc | hc
          · exact h3 c hc
          · simp at hc; subst hc; exact hem _ h2
      · have : rest.length = rest.dropLast.length + 1 := by
          conv_lhs => rw [hrest]
          simp
        simp only [List.length_cons]
        omega

theorem checkBucketNameCommon_isName (b : String) (strict : Bool)
    (h : checkBucketNameCommon b strict = none) : IsName b := by
  have key : (∀ c ∈ b.data, c ≠ '/') ∧ 3 ≤ b.data.length := by
    unfold checkBucketNameCommon at h
    repeat' split at h
    all_goals first
      | (simp at h; done)
      | skip
    · rename_i hv
      have hv2 : validBucketNameStrict b = true := by simpa using hv
      obtain ⟨ha, hl⟩ := matchName_spec _ _ _ (by intro c hc; simp [hc]) hv2
      refine ⟨fun c hc hs => ?_, hl⟩
      have := ha c hc
      subst hs
      simp [lowerAlnum] at this
    · rename_i hv
      have hv2 : validBucketName b = true := by simpa using hv
      obtain ⟨ha, hl⟩ := matchName_spec _ _ _ (by intro c hc; simp [hc]) hv2
      refine ⟨fun c hc hs => ?_, hl⟩
      have := ha c hc
      subst hs
      revert this
      decide
  obtain ⟨hs, hl⟩ := key
  refine ⟨fun hm => hs _ hm rfl, ?_⟩
  unfold isRealElem
  simp only [decide_eq_true_eq]
  refine ⟨?_, ?_, ?_⟩ <;> intro h0 <;> rw [h0] at hl <;> simp at hl

theorem newClientFromSecrets_minio {σ : Type} (env : Env σ) (secrets : StrMap)
    (client : S3Client σ) (h : NewClientFromSecrets env secrets = .ok client) :
    ∃ srv : Server σ, client.Minio = minioClient srv := by
  unfold NewClientFromSecrets NewS3Client at h
  split at h
  · simp at h
  · simp only at h
    split at h
    · simp at h
    · simp only [Except.ok.injEq] at h
      subst h
      exact ⟨_, rfl⟩

theorem isBucketExist_ok_valid {σ : Type} (c : S3Client σ) (srv : Server σ)
    (hc : c.Minio = minioClient srv) (b : String) (w : World σ)
    (h : (c.IsBucketExist b w).1.2 = none) : CheckValidBucketName b = none := by
  unfold S3Client.IsBucketExist at h
  rw [hc] at h
  cases hv : CheckValidBucketName b with
  | none => rfl
  | some err => simp [minioClient, hv] at h

theorem createBucket_ok_valid {σ : Type} (c : S3Client σ) (srv : Server σ)
    (hc : c.Minio = minioClient srv) (b : String) (w : World σ)
    (h : (c.CreateBucket b w).1 = none) : CheckValidBucketNameStrict b = none := by
  unfold S3Client.CreateBucket at h
  rw [hc] at h
  cases hv : CheckValidBucketNameStrict b with
  | none => rfl
  | some err => simp [minioClient, hv] at h

/-! ## Theorems -/

/-- C1: `volumeIDToBucketPrefix` splits a volume ID at its first `/`: when the
ID contains `/` the returned bucket contains no `/` and
`bucket ++ "/" ++ prefix` is the ID, and when the ID contains no `/` the result
is `(id, "")`. -/
theorem volumeIDToBucketPrefix_splits_at_first_slash (id : String) :
    ('/' ∈ id.data →
      '/' ∉ (volumeIDToBucketPrefix id).1.data ∧
      (volumeIDToBucketPrefix id).1 ++ "/" ++ (volumeIDToBucketPrefix id).2 = id) ∧
    ('/' ∉ id.data → volumeIDToBucketPrefix id = (id, "")) := by
  unfold volumeIDToBucketPrefix
  rw [SplitN_slash_two]
  cases h : cutAt ['/'] id.data with
  | none =>
    have hn := (cutAt_slash_none id.data).mp h
    simp [hn]
  | some ab =>
    obtain ⟨a, b⟩ := ab
    obtain ⟨h1, h2⟩ := cutAt_slash_some _ _ _ h
    have hm : '/' ∈ id.data := by rw [h2]; simp
    refine ⟨fun _ => ⟨h1, ?_⟩, fun hn => absurd hm hn⟩
    apply String.ext
    simp [String.data_append, h2]

theorem createVolume_ok_volumeId {σ : Type} (env : Env σ) (c : ControllerServer)
    (req : CreateVolumeRequest) (w : World σ) (resp : CreateVolumeResponse)
    (h : (c.CreateVolume env req w).1 = .ok resp) :
    resp.Volume.VolumeId = (createVolumeNames req.Name req.Parameters).1 := by
  unfold ControllerServer.CreateVolume at h
  repeat' split at h
  all_goals first
    | (simp at h; done)
    | (simp at h; subst h; simp [*])

/-- C2, as stated, fails: the volume ID built for bucket `shared` and the
non-empty prefix `vol-1/` is `shared/vol-1`, which decodes to a prefix without
the trailing slash. -/
theorem createVolume_roundtrip_loses_trailing_slash :
    volumeIDToBucketPrefix (createVolumeNames "vol-1/" [("bucket", "shared")]).1
        = ("shared", "vol-1") ∧
      volumeIDToBucketPrefix (createVolumeNames "vol-1/" [("bucket", "shared")]).1
        ≠ ("shared", "vol-1/") := by
  decide

/-- C2, amended: when the bucket parameter is a single path element (no `/`,
not empty, `.` or `..`) and the request name is a clean relative path (its
elements between slashes are not empty, `.` or `..`), decoding the volume ID
that `CreateVolume` builds returns exactly (bucket, name); and every id without
the separator decodes to `(id, "")`. -/
theorem createVolume_roundtrip (bucket pfx : String) (params : StrMap)
    (hparam : params.get "bucket" = bucket) (hb : IsName bucket)
    (hp : IsCleanRel pfx) :
    volumeIDToBucketPrefix (createVolumeNames pfx params).1 = (bucket, pfx) ∧
    ∀ id : String, '/' ∉ id.data → volumeIDToBucketPrefix id = (id, "") := by
  have hbne : bucket ≠ "" := by
    intro h
    have := hb.2
    rw [h] at this
    exact absurd this (by decide)
  refine ⟨?_, volumeIDToBucketPrefix_no_slash⟩
  unfold createVolumeNames
  simp only [hparam, hbne, ne_eq, not_false_eq_true, if_true]
  rw [pathJoin_two _ _ hb hp]
  exact volumeIDToBucketPrefix_append _ _ hb.1

/-- Witness for C2, amended: bucket `shared` and the two-element name
`team-a/vol-1`. -/
theorem createVolume_roundtrip_witness :
    volumeIDToBucketPrefix
        (createVolumeNames "team-a/vol-1" [("bucket", "shared")]).1
        = ("shared", "team-a/vol-1") ∧
    ∀ id : String, '/' ∉ id.data → volumeIDToBucketPrefix id = (id, "") :=
  createVolume_roundtrip "shared" "team-a/vol-1" [("bucket", "shared")]
    (by decide) (by decide) (by decide)

theorem createVolume_ok_names {σ : Type} (env : Env σ) (c : ControllerServer)
    (req : CreateVolumeRequest) (w : World σ) (resp : CreateVolumeResponse)
    (h : (c.CreateVolume env req w).1 = .ok resp)
    (hb : req.Parameters.get "bucket" ≠ "") :
    IsName (req.Parameters.get "bucket") ∧ IsName req.Name := by
  unfold ControllerServer.CreateVolume at h
  split at h
  · simp at h
  split at h
  · simp at h
  rename_i hlen
  have hn : createVolumeNames req.Name req.Parameters =
      (pathJoin [req.Parameters.get "bucket", req.Name], req.Parameters.get "bucket",
        req.Name) := by
    simp [createVolumeNames, hb]
  rw [hn] at h
  simp only at h
  split at h
  · simp at h
  split at h
  · simp at h
  rename_i client hclient
  obtain ⟨srv, hsrv⟩ := newClientFromSecrets_minio env _ _ hclient
  split at h
  · simp at h
  rename_i exits w1 hexist
  have hv1 := isBucketExist_ok_valid client srv hsrv _ w (by rw [hexist])
  split at h
  · simp at h
  rename_i w2 hcb1
  split at h
  · simp at h
  rename_i w3 hcb2
  have hne : req.Name ≠ "" := by
    intro h0
    apply hlen
    rw [h0]; rfl
  simp only [hne, ne_eq, not_false_eq_true, if_true] at hcb2
  have hv2 := createBucket_ok_valid client srv hsrv _ w2 (by rw [hcb2])
  exact ⟨checkBucketNameCommon_isName _ _ hv1, checkBucketNameCommon_isName _ _ hv2⟩

/-- C3: for every successful `CreateVolume` request the returned volume ID is
the request name when the bucket parameter is absent or empty, and otherwise
is exactly the bucket parameter ++ `/` ++ the request name. (A request with a
bucket parameter succeeds only after the minio client has accepted both the
parameter and the request name as bucket names, and `path.Join` rewrites
nothing in such names.) -/
theorem createVolume_volumeId {σ : Type} (env : Env σ) (c : ControllerServer)
    (req : CreateVolumeRequest) (w : World σ) (resp : CreateVolumeResponse)
    (h : (c.CreateVolume env req w).1 = .ok resp) :
    (req.Parameters.get "bucket" = "" → resp.Volume.VolumeId = req.Name) ∧
    (req.Parameters.get "bucket" ≠ "" →
      resp.Volume.VolumeId = req.Parameters.get "bucket" ++ "/" ++ req.Name) := by
  have hid := createVolume_ok_volumeId env c req w resp h
  refine ⟨?_, ?_⟩
  · intro h0
    rw [hid]
    simp [createVolumeNames, h0]
  · intro h0
    obtain ⟨hb, hn⟩ := createVolume_ok_names env c req w resp h h0
    have hrel : IsCleanRel req.Name := by
      intro e he
      have hs : req.Name.data.splitOn '/' = [req.Name.data] := by
        have := List.splitOnP_eq_single (fun x => x == '/') req.Name.data
          (by intro x hx; simp; intro h; exact hn.1 (h ▸ hx))
        simpa [List.splitOn] using this
      rw [hs] at he
      simp only [List.mem_singleton] at he
      subst he
      exact hn.2
    rw [hid]
    simp only [createVolumeNames, h0, ne_eq, not_false_eq_true, if_true]
    exact pathJoin_two _ _ hb hrel

/-- Witness for C3: a successful request with bucket parameter `shared` and name
`vol-1` on the store in memory; its volume ID is `shared` ++ `/` ++ `vol-1`. -/
theorem createVolume_volumeId_witness :
    (controller.CreateVolume MemStore.env
        ⟨"vol-1", none, writerCaps, [("bucket", "shared")], []⟩
        ⟨⟨true, [("shared", [])], [], false⟩, []⟩).1
      = .ok ⟨⟨"shared/vol-1", 0, []⟩⟩ ∧
    (⟨⟨"shared/vol-1", 0, []⟩⟩ : CreateVolumeResponse).Volume.VolumeId
      = "shared" ++ "/" ++ "vol-1" :=
  ⟨by decide,
   (createVolume_volumeId MemStore.env controller
      ⟨"vol-1", none, writerCaps, [("bucket", "shared")], []⟩
      ⟨⟨true, [("shared", [])], [], false⟩, []⟩ ⟨⟨"shared/vol-1", 0, []⟩⟩
      (by decide)).2 (by decide)⟩

/-- C9: on a reachable store without the bucket `missing`, the store's exists
query answers false without error, and `IsBucketExist` returns true without
error. -/
theorem isBucketExist_true_for_missing_bucket :
    (MemStore.client.BucketExists ⟨true, [], [], false⟩ "missing").1 = (false, none) ∧
    (memClient.IsBucketExist "missing" ⟨⟨true, [], [], false⟩, []⟩).1 = (true, none) := by
  decide

/-- C6: on a reachable store with no bucket at all, `CreateVolume` for the name
`vol-1` without a bucket parameter succeeds, its only store call is the exists
query, and the store still has no bucket afterwards. -/
theorem createVolume_skips_bucket_creation :
    (controller.CreateVolume MemStore.env ⟨"vol-1", none, writerCaps, [], []⟩
        ⟨⟨true, [], [], false⟩, []⟩).1 = .ok ⟨⟨"vol-1", 0, []⟩⟩ ∧
    (controller.CreateVolume MemStore.env ⟨"vol-1", none, writerCaps, [], []⟩
        ⟨⟨true, [], [], false⟩, []⟩).2.calls = [.BucketExists "vol-1"] ∧
    (controller.CreateVolume MemStore.env ⟨"vol-1", none, writerCaps, [], []⟩
        ⟨⟨true, [], [], false⟩, []⟩).2.store.buckets = [] := by
  decide

/-- C7: with parameter bucket `shared` and name `vol-1`, on a store that holds
the empty bucket `shared`, `CreateVolume` makes a bucket named `vol-1` and puts
no object: afterwards `shared` is still empty and a bucket `vol-1` exists. -/
theorem createVolume_makes_bucket_for_prefix :
    (controller.CreateVolume MemStore.env
        ⟨"vol-1", none, writerCaps, [("bucket", "shared")], []⟩
        ⟨⟨true, [("shared", [])], [], false⟩, []⟩).1
      = .ok ⟨⟨"shared/vol-1", 0, []⟩⟩ ∧
    (controller.CreateVolume MemStore.env
        ⟨"vol-1", none, writerCaps, [("bucket", "shared")], []⟩
        ⟨⟨true, [("shared", [])], [], false⟩, []⟩).2.calls
      = [.BucketExists "shared", .MakeBucket "vol-1"] ∧
    (controller.CreateVolume MemStore.env
        ⟨"vol-1", none, writerCaps, [("bucket", "shared")], []⟩
        ⟨⟨true, [("shared", [])], [], false⟩, []⟩).2.store.buckets
      = [("shared", []), ("vol-1", [])] := by
  decide

/-- C8: `DeleteVolume` of `shared/vol-1`, on a store whose bucket `shared` holds
the marker `vol-1`, an object under it and an object of another volume, lists
the whole bucket, removes every object and removes the bucket `shared`. -/
theorem deleteVolume_with_prefix_deletes_bucket :
    (controller.DeleteVolume MemStore.env ⟨"shared/vol-1", []⟩
        ⟨⟨true, [("shared", [("vol-1", ""), ("vol-1/data", ""), ("vol-2/data", "")])],
          [], false⟩, []⟩).1 = .ok {} ∧
    (controller.DeleteVolume MemStore.env ⟨"shared/vol-1", []⟩
        ⟨⟨true, [("shared", [("vol-1", ""), ("vol-1/data", ""), ("vol-2/data", "")])],
          [], false⟩, []⟩).2.calls
      = [.ListObjects "shared" "" true,
         .RemoveObjects "shared"
           [⟨"vol-1", "", none⟩, ⟨"vol-1/data", "", none⟩, ⟨"vol-2/data", "", none⟩],
         .RemoveBucket "shared"] ∧
    (controller.DeleteVolume MemStore.env ⟨"shared/vol-1", []⟩
        ⟨⟨true, [("shared", [("vol-1", ""), ("vol-1/data", ""), ("vol-2/data", "")])],
          [], false⟩, []⟩).2.store.buckets = [] := by
  decide

/-- C10: `DeleteBucket` first runs the bulk pass on the bucket. If that pass
reports no error, the fallback is not run: the next and last call is the
client's `RemoveBucket` of that bucket, on the store the bulk pass left, and
its error and store are the result. If the bulk pass reports an error, the
one-by-one fallback runs on the world the bulk pass left; if the fallback
reports no error, the last call is the client's `RemoveBucket` of that bucket
on the store the fallback left; if the fallback reports an error too, the
result is the fallback's error and world, without any `RemoveBucket` call.
Each pass starts with a listing of the bucket with the empty prefix and makes
no other listing and no `RemoveBucket` call, so `DeleteBucket` lists once or
twice and removes the bucket once or not at all. -/
theorem deleteBucket_fallback {σ : Type} (c : S3Client σ) (bucketName : String)
    (w : World σ) :
    ((c.deleteObjects bucketName "" w).1 = none →
      c.DeleteBucket bucketName w =
        ((c.Minio.RemoveBucket (c.deleteObjects bucketName "" w).2.store bucketName).1,
         ⟨(c.Minio.RemoveBucket (c.deleteObjects bucketName "" w).2.store bucketName).2,
          (c.deleteObjects bucketName "" w).2.calls ++ [.RemoveBucket bucketName]⟩)) ∧
    ((c.deleteObjects bucketName "" w).1 ≠ none →
      (c.deleteObjectsOneByOne bucketName "" (c.deleteObjects bucketName "" w).2).1 = none →
      c.DeleteBucket bucketName w =
        ((c.Minio.RemoveBucket
            (c.deleteObjectsOneByOne bucketName ""
              (c.deleteObjects bucketName "" w).2).2.store bucketName).1,
         ⟨(c.Minio.RemoveBucket
            (c.deleteObjectsOneByOne bucketName ""
              (c.deleteObjects bucketName "" w).2).2.store bucketName).2,
          (c.deleteObjectsOneByOne bucketName ""
              (c.deleteObjects bucketName "" w).2).2.calls ++ [.RemoveBucket bucketName]⟩)) ∧
    ((c.deleteObjects bucketName "" w).1 ≠ none →
      (c.deleteObjectsOneByOne bucketName "" (c.deleteObjects bucketName "" w).2).1 ≠ none →
      c.DeleteBucket bucketName w =
        c.deleteObjectsOneByOne bucketName "" (c.deleteObjects bucketName "" w).2) ∧
    (∃ rest, (c.deleteObjects bucketName "" w).2.calls =
        w.calls ++ Call.ListObjects bucketName "" true :: rest ∧
      rest.countP Call.isListObjects = 0 ∧ rest.countP Call.isRemoveBucket = 0) ∧
    (∃ rest, (c.deleteObjectsOneByOne bucketName "" (c.deleteObjects bucketName "" w).2).2.calls =
        (c.deleteObjects bucketName "" w).2.calls ++ Call.ListObjects bucketName "" true :: rest ∧
      rest.countP Call.isListObjects = 0 ∧ rest.countP Call.isRemoveBucket = 0) ∧
    (c.DeleteBucket bucketName w).2.listings =
      w.listings + (if (c.deleteObjects bucketName "" w).1 = none then 1 else 2) ∧
    (c.DeleteBucket bucketName w).2.bucketRemovals =
      w.bucketRemovals +
        (if (c.deleteObjects bucketName "" w).1 = none ∨
            (c.deleteObjectsOneByOne bucketName "" (c.deleteObjects bucketName "" w).2).1
              = none
         then 1 else 0) := by
  have hshape1 : ∀ w0 : World σ, ∃ rest, (c.deleteObjects bucketName "" w0).2.calls =
        w0.calls ++ Call.ListObjects bucketName "" true :: rest ∧
      rest.countP Call.isListObjects = 0 ∧ rest.countP Call.isRemoveBucket = 0 := by
    intro w0
    unfold S3Client.deleteObjects
    cases hl : c.Minio.ListObjects w0.store bucketName "" true with
    | mk listing st =>
      dsimp only
      cases hs : S3Client.listErrSeen listing 0 with
      | some e => exact ⟨[], by simp [World.record]⟩
      | none =>
        dsimp only
        refine ⟨[.RemoveObjects bucketName (S3Client.forwarded listing)], ?_⟩
        split <;> simp [World.record, Call.isListObjects, Call.isRemoveBucket]
  have hshape2 : ∀ w0 : World σ, ∃ rest,
      (c.deleteObjectsOneByOne bucketName "" w0).2.calls =
        w0.calls ++ Call.ListObjects bucketName "" true :: rest ∧
      rest.countP Call.isListObjects = 0 ∧ rest.countP Call.isRemoveBucket = 0 := by
    intro w0
    unfold S3Client.deleteObjectsOneByOne
    cases hl : c.Minio.ListObjects w0.store bucketName "" true with
    | mk listing st =>
      dsimp only
      cases hs : S3Client.listErrSeen listing 16 with
      | some e => exact ⟨[], by simp [World.record]⟩
      | none =>
        dsimp only
        have hcalls := foldl_removeOne_calls c bucketName (S3Client.forwarded listing)
          (0, w0.record st (.ListObjects bucketName "" true))
        have h1 := countP_removeObject_calls Call.isListObjects bucketName
          (S3Client.forwarded listing) (by intro k v; rfl)
        have h2 := countP_removeObject_calls Call.isRemoveBucket bucketName
          (S3Client.forwarded listing) (by intro k v; rfl)
        cases hfold : List.foldl (c.removeOne bucketName)
            (0, w0.record st (.ListObjects bucketName "" true))
            (S3Client.forwarded listing) with
        | mk removeErrors w2 =>
          rw [hfold] at hcalls
          simp only [World.record] at hcalls
          dsimp only
          refine ⟨_, ?_, h1, h2⟩
          split <;> simp [hcalls]
  have hb := deleteObjects_counts c bucketName "" w
  refine ⟨?_, ?_, ?_, hshape1 w, hshape2 _, ?_⟩
  · intro h
    unfold S3Client.DeleteBucket
    cases hbulk : c.deleteObjects bucketName "" w with
    | mk e1 w1 =>
      rw [hbulk] at h
      simp only at h
      subst h
      simp [S3Client.removeBucket, World.record]
  · intro h h2
    unfold S3Client.DeleteBucket
    cases hbulk : c.deleteObjects bucketName "" w with
    | mk e1 w1 =>
      rw [hbulk] at h h2
      cases e1 with
      | none => simp at h
      | some err1 =>
        simp only
        cases hfb : c.deleteObjectsOneByOne bucketName "" w1 with
        | mk e2 w2 =>
          simp only [hfb] at h2
          subst h2
          simp [S3Client.removeBucket, World.record]
  · intro h h2
    unfold S3Client.DeleteBucket
    cases hbulk : c.deleteObjects bucketName "" w with
    | mk e1 w1 =>
      rw [hbulk] at h h2
      cases e1 with
      | none => simp at h
      | some err1 =>
        simp only
        cases hfb : c.deleteObjectsOneByOne bucketName "" w1 with
        | mk e2 w2 =>
          simp only [hfb] at h2
          cases e2 with
          | none => simp at h2
          | some err2 => rfl
  · unfold S3Client.DeleteBucket
    cases hbulk : c.deleteObjects bucketName "" w with
    | mk e1 w1 =>
      rw [hbulk] at hb
      simp only at hb
      cases e1 with
      | none =>
        have hr := removeBucket_counts c bucketName w1
        simp [hr.1, hr.2, hb.1, hb.2]
      | some err1 =>
        have hf := deleteObjectsOneByOne_counts c bucketName "" w1
        cases hfb : c.deleteObjectsOneByOne bucketName "" w1 with
        | mk e2 w2 =>
          rw [hfb] at hf
          simp only at hf
          cases e2 with
          | none =>
            have hr := removeBucket_counts c bucketName w2
            simp [hfb, hr.1, hr.2, hb.1, hb.2, hf.1, hf.2]
          | some err2 =>
            simp [hfb, hb.1, hb.2, hf.1, hf.2]

/-- Witness for C10: one object of bucket `logs` cannot be removed, so the bulk
pass and the fallback both fail; the result is the fallback's, with two
listings and no `RemoveBucket` call. -/
theorem deleteBucket_fallback_witness :
    (memClient.deleteObjects "logs" ""
        ⟨⟨true, [("logs", [("k1", ""), ("k2", "")])], [("logs", "k2")], false⟩, []⟩).1
      ≠ none ∧
    memClient.DeleteBucket "logs"
        ⟨⟨true, [("logs", [("k1", ""), ("k2", "")])], [("logs", "k2")], false⟩, []⟩
      = memClient.deleteObjectsOneByOne "logs" ""
          (memClient.deleteObjects "logs" ""
            ⟨⟨true, [("logs", [("k1", ""), ("k2", "")])], [("logs", "k2")], false⟩,
              []⟩).2 ∧
    (memClient.DeleteBucket "logs"
        ⟨⟨true, [("logs", [("k1", ""), ("k2", "")])], [("logs", "k2")], false⟩, []⟩).1
      = some (.errorf "failed to remove 1 objects out of total 1 of path logs") ∧
    (memClient.DeleteBucket "logs"
        ⟨⟨true, [("logs", [("k1", ""), ("k2", "")])], [("logs", "k2")], false⟩, []⟩).2.calls
      = [.ListObjects "logs" "" true,
         .RemoveObjects "logs" [⟨"k1", "", none⟩, ⟨"k2", "", none⟩],
         .ListObjects "logs" "" true,
         .RemoveObject "logs" "k2" ""] :=
  ⟨by decide,
   (deleteBucket_fallback memClient "logs"
      ⟨⟨true, [("logs", [("k1", ""), ("k2", "")])], [("logs", "k2")], false⟩, []⟩).2.2.1
      (by decide) (by decide),
   by decide, by decide⟩

theorem VolumeLocks.run_keeps_held (id : String) (ops : List LockOp)
    (hops : ∀ op ∈ ops, op ≠ LockOp.Release id ∧ op ≠ LockOp.Unlock id)
    (v : VolumeLocks) (hv : id ∈ v.lock) : id ∈ (v.run ops).lock := by
  induction ops generalizing v with
  | nil => simpa [VolumeLocks.run] using hv
  | cons op rest ih =>
    have hop := hops op (List.mem_cons_self _ _)
    have hrest : ∀ o ∈ rest, o ≠ LockOp.Release id ∧ o ≠ LockOp.Unlock id :=
      fun o ho => hops o (List.mem_cons_of_mem _ ho)
    have hstep : id ∈ (v.step op).lock := by
      cases op with
      | Lock k => simp [VolumeLocks.step, VolumeLocks.Lock, hv]
      | Unlock k =>
        have hk : id ≠ k := fun h => hop.2 (by rw [h])
        simp [VolumeLocks.step, VolumeLocks.Unlock, hv, hk]
      | IsLocked k => simpa [VolumeLocks.step] using hv
      | TryAcquire k =>
        by_cases hk : k ∈ v.lock <;> simp [VolumeLocks.step, VolumeLocks.TryAcquire, hk, hv]
      | Release k =>
        have hk : id ≠ k := fun h => hop.1 (by rw [h])
        simp [VolumeLocks.step, VolumeLocks.Release, hv, hk]
    have := ih hrest (v.step op) hstep
    simpa [VolumeLocks.run] using this

/-- C4: `TryAcquire id` returns true exactly when `id` was not held, `id` is
held afterwards in both cases, the held status of every other id is unchanged,
and a second `TryAcquire id` returns false after any sequence of registry calls
that contains no `Release id` and no `Unlock id`. -/
theorem VolumeLocks.tryAcquire_exclusive (v : VolumeLocks) (id : String) :
    ((v.TryAcquire id).1 = true ↔ v.IsLocked id = false) ∧
    (v.TryAcquire id).2.IsLocked id = true ∧
    (∀ other : String, other ≠ id →
      (v.TryAcquire id).2.IsLocked other = v.IsLocked other) ∧
    (∀ ops : List LockOp,
      (∀ op ∈ ops, op ≠ LockOp.Release id ∧ op ≠ LockOp.Unlock id) →
      ((((v.TryAcquire id).2).run ops).TryAcquire id).1 = false) := by
  have hheld : id ∈ (v.TryAcquire id).2.lock := by
    by_cases h : id ∈ v.lock <;> simp [VolumeLocks.TryAcquire, h]
  refine ⟨?_, ?_, ?_, ?_⟩
  · by_cases h : id ∈ v.lock <;> simp [VolumeLocks.TryAcquire, VolumeLocks.IsLocked, h]
  · simpa [VolumeLocks.IsLocked] using hheld
  · intro other ho
    by_cases h : id ∈ v.lock <;>
      simp [VolumeLocks.TryAcquire, VolumeLocks.IsLocked, h, ho]
  · intro ops hops
    have hrun := VolumeLocks.run_keeps_held id ops hops _ hheld
    generalize ((v.TryAcquire id).2).run ops = u at hrun
    simp [VolumeLocks.TryAcquire, hrun]

/-- C5: after `Release id` the id is not locked and a following `TryAcquire id`
returns true, the held status of every other id is unchanged, and releasing an
id that is not held leaves the registry exactly as it was. -/
theorem VolumeLocks.release_frees_only_id (v : VolumeLocks) (id : String) :
    (v.Release id).IsLocked id = false ∧
    ((v.Release id).TryAcquire id).1 = true ∧
    (∀ other : String, other ≠ id →
      (v.Release id).IsLocked other = v.IsLocked other) ∧
    (v.IsLocked id = false → v.Release id = v) := by
  refine ⟨?_, ?_, ?_, ?_⟩
  · simp [VolumeLocks.Release, VolumeLocks.IsLocked]
  · simp [VolumeLocks.Release, VolumeLocks.TryAcquire]
  · intro other ho
    simp [VolumeLocks.Release, VolumeLocks.IsLocked, ho]
  · intro h
    have hn : id ∉ v.lock := by simpa [VolumeLocks.IsLocked] using h
    cases v with
    | mk l => simp [VolumeLocks.Release, Finset.erase_eq_of_not_mem hn]

/-- C11: when the listing under (bucket, prefix) consists of N objects,
`deleteObjectsOneByOne` makes, after the listing call, exactly one `RemoveObject`
call per listed object with that object's key and version, in listing order;
it returns nil exactly when no removal failed, and otherwise its error reports
the number of failed removals and the total N. -/
theorem deleteObjectsOneByOne_attempts {σ : Type} (c : S3Client σ)
    (bucketName pfx : String) (w : World σ)
    (hlist : ∀ o ∈ (c.Minio.ListObjects w.store bucketName pfx true).1.entries,
      o.Err = none) :
    (c.deleteObjectsOneByOne bucketName pfx w).2.calls =
      w.calls ++ Call.ListObjects bucketName pfx true ::
        (c.Minio.ListObjects w.store bucketName pfx true).1.entries.map
          (fun o => Call.RemoveObject bucketName o.Key o.VersionID) ∧
    ((c.deleteObjectsOneByOne bucketName pfx w).1 = none ↔
      S3Client.failedRemovals c bucketName
        (c.Minio.ListObjects w.store bucketName pfx true).1.entries
        (c.Minio.ListObjects w.store bucketName pfx true).2 = 0) ∧
    (S3Client.failedRemovals c bucketName
        (c.Minio.ListObjects w.store bucketName pfx true).1.entries
        (c.Minio.ListObjects w.store bucketName pfx true).2 ≠ 0 →
      (c.deleteObjectsOneByOne bucketName pfx w).1 =
        some (.errorf ("failed to remove " ++
          toString (S3Client.failedRemovals c bucketName
            (c.Minio.ListObjects w.store bucketName pfx true).1.entries
            (c.Minio.ListObjects w.store bucketName pfx true).2)
          ++ " objects out of total " ++
          toString (c.Minio.ListObjects w.store bucketName pfx true).1.entries.length
          ++ " of path " ++ bucketName))) := by
  unfold S3Client.deleteObjectsOneByOne
  cases hl : c.Minio.ListObjects w.store bucketName pfx true with
  | mk listing st =>
    rw [hl] at hlist
    obtain ⟨hfw, hle⟩ := forwarded_of_no_error listing hlist
    have hseen : S3Client.listErrSeen listing 16 = none := by
      unfold S3Client.listErrSeen
      split <;> simp [hle]
    dsimp only
    rw [hseen]
    dsimp only
    have hcalls := foldl_removeOne_calls c bucketName (S3Client.forwarded listing)
      (0, w.record st (.ListObjects bucketName pfx true))
    have hcount := foldl_removeOne_count c bucketName (S3Client.forwarded listing)
      (0, w.record st (.ListObjects bucketName pfx true))
    cases hfold : List.foldl (c.removeOne bucketName)
        (0, w.record st (.ListObjects bucketName pfx true))
        (S3Client.forwarded listing) with
    | mk removeErrors w2 =>
      rw [hfold] at hcalls hcount
      simp only [World.record, Nat.zero_add, hfw] at hcalls hcount
      dsimp only
      rw [hfw]
      by_cases hz : removeErrors > 0
      · have hne : removeErrors ≠ 0 := by omega
        simp [hz, hcalls, ← hcount, hne]
      · have he : removeErrors = 0 := by omega
        simp [hcalls, ← hcount, he]

/-- Witness for C11: bucket `logs` holds `k1`, `k2`, `k3` and the store refuses to
remove `k2`: three attempts, one failure out of three reported. -/
theorem deleteObjectsOneByOne_attempts_witness :
    (memClient.deleteObjectsOneByOne "logs" ""
        ⟨⟨true, [("logs", [("k1", ""), ("k2", ""), ("k3", "")])], [("logs", "k2")], false⟩,
          []⟩).2.calls
      = [.ListObjects "logs" "" true, .RemoveObject "logs" "k1" "", .RemoveObject "logs" "k2" "",
         .RemoveObject "logs" "k3" ""] ∧
    (memClient.deleteObjectsOneByOne "logs" ""
        ⟨⟨true, [("logs", [("k1", ""), ("k2", ""), ("k3", "")])], [("logs", "k2")], false⟩,
          []⟩).1
      = some (.errorf "failed to remove 1 objects out of total 3 of path logs") := by
  have h := deleteObjectsOneByOne_attempts memClient "logs" ""
    ⟨⟨true, [("logs", [("k1", ""), ("k2", ""), ("k3", "")])], [("logs", "k2")], false⟩, []⟩
    (by decide)
  refine ⟨?_, ?_⟩
  · rw [h.1]; decide
  · rw [h.2.2 (by decide)]; decide

/-- C12: `DeletePrefix` of prefix `vol-1` in bucket `shared`, which also holds an
object of another volume, lists the whole bucket (listing prefix empty),
removes every object and removes the bucket. -/
theorem deletePrefix_deletes_whole_bucket :
    (memClient.DeletePrefix "shared" "vol-1"
        ⟨⟨true, [("shared", [("vol-1", ""), ("vol-1/data", ""), ("vol-2/data", "")])],
          [], false⟩, []⟩).1 = none ∧
    (memClient.DeletePrefix "shared" "vol-1"
        ⟨⟨true, [("shared", [("vol-1", ""), ("vol-1/data", ""), ("vol-2/data", "")])],
          [], false⟩, []⟩).2.calls
      = [.RemoveObject "shared" "vol-1" "", .ListObjects "shared" "" true,
         .RemoveObject "shared" "vol-1/data" "", .RemoveObject "shared" "vol-2/data" "",
         .RemoveBucket "shared"] ∧
    (memClient.DeletePrefix "shared" "vol-1"
        ⟨⟨true, [("shared", [("vol-1", ""), ("vol-1/data", ""), ("vol-2/data", "")])],
          [], false⟩, []⟩).2.store.buckets = [] := by
  decide

/-- C20: for a timeout of `k` polling intervals of 10 ms, `k` positive,
`waitForMount` returns after at least one and at most `k` mount-table probes of
the path: success at the first probe that reports a mount point, the probe's
error at the first probe that fails, and the timeout error after `k` probes
that all report "not a mount point"; the 10 s of `FuseMount` are 1000
intervals. -/
theorem waitForMount_bounded {σ : Type} (os : OS σ) (path : String) (k : Nat)
    (hk : 0 < k) (w : NodeWorld σ) :
    (∀ n < k,
      (∀ j < n, (probeAt os path (10 * Millisecond) j w.state).1 = (true, none)) →
      ((probeAt os path (10 * Millisecond) n w.state).1 = (false, none) →
        (waitForMount os path ((k : Int) * (10 * Millisecond)) w).1 = none ∧
        (waitForMount os path ((k : Int) * (10 * Millisecond)) w).2.probes =
          w.probes ++ List.replicate (n + 1) path) ∧
      (∀ b err, (probeAt os path (10 * Millisecond) n w.state).1 = (b, some err) →
        (waitForMount os path ((k : Int) * (10 * Millisecond)) w).1 = some err ∧
        (waitForMount os path ((k : Int) * (10 * Millisecond)) w).2.probes =
          w.probes ++ List.replicate (n + 1) path)) ∧
    ((∀ j < k, (probeAt os path (10 * Millisecond) j w.state).1 = (true, none)) →
      (waitForMount os path ((k : Int) * (10 * Millisecond)) w).1 =
        some (.status .Internal ("Mount: failed to mount " ++ path ++ ": timeout")) ∧
      (waitForMount os path ((k : Int) * (10 * Millisecond)) w).2.probes =
        w.probes ++ List.replicate k path) ∧
    (∃ n, 1 ≤ n ∧ n ≤ k ∧
      (waitForMount os path ((k : Int) * (10 * Millisecond)) w).2.probes =
        w.probes ++ List.replicate n path) ∧
    10 * Second = ((1000 : Nat) : Int) * (10 * Millisecond) := by
  have hi : (0 : Int) < 10 * Millisecond := by decide
  have hfuel : waitFuel ((k : Int) * (10 * Millisecond)) (10 * Millisecond) = k + 1 := by
    unfold waitFuel
    rw [Int.mul_ediv_cancel _ (ne_of_gt hi)]
    simp
  have hout := waitLoop_outcome os path (10 * Millisecond) hi k k 0
    (waitFuel ((k : Int) * (10 * Millisecond)) (10 * Millisecond)) w
    (by omega) hk (by omega)
  have hzero : ((0 : Nat) : Int) * (10 * Millisecond) = 0 := by simp
  rw [hzero] at hout
  obtain ⟨hA, hB, hC1, hC2⟩ := hout
  have hw : ∀ r : Option GoError,
      (waitLoop os path ((k : Int) * (10 * Millisecond)) (10 * Millisecond)
        (waitFuel ((k : Int) * (10 * Millisecond)) (10 * Millisecond)) 0 w).1 = some r →
      waitForMount os path ((k : Int) * (10 * Millisecond)) w =
        (r, (waitLoop os path ((k : Int) * (10 * Millisecond)) (10 * Millisecond)
          (waitFuel ((k : Int) * (10 * Millisecond)) (10 * Millisecond)) 0 w).2) := by
    intro r hr
    unfold waitForMount
    cases hl : waitLoop os path ((k : Int) * (10 * Millisecond)) (10 * Millisecond)
        (waitFuel ((k : Int) * (10 * Millisecond)) (10 * Millisecond)) 0 w with
    | mk o w1 =>
      rw [hl] at hr
      simp only at hr
      subst hr
      simp only [hl]
  refine ⟨?_, ?_, ?_, by decide⟩
  · intro n hn hq
    have h := hA n hn hq
    refine ⟨fun h1 => ?_, fun b err h1 => ?_⟩
    · have h2 := h.1 h1
      rw [hw _ h2.1]
      exact ⟨rfl, h2.2⟩
    · have h2 := h.2 b err h1
      rw [hw _ h2.1]
      exact ⟨rfl, h2.2⟩
  · intro hq
    have h2 := hB hq
    rw [hw _ h2.1]
    exact ⟨rfl, h2.2⟩
  · obtain ⟨n, h1, h2, h3⟩ := hC2
    cases hr : (waitLoop os path ((k : Int) * (10 * Millisecond)) (10 * Millisecond)
        (waitFuel ((k : Int) * (10 * Millisecond)) (10 * Millisecond)) 0 w).1 with
    | none => exact absurd hr hC1
    | some r =>
      rw [hw r hr]
      exact ⟨n, h1, h2, h3⟩

/-- Witness for C20: a FUSE mount on `/staging` that becomes visible after two
polling intervals is found by the third probe of a 10 s wait. -/
theorem waitForMount_bounded_witness :
    (waitForMount NodeState.os "/staging" (((1000 : Nat) : Int) * (10 * Millisecond))
        ⟨⟨"/root", ["/staging"], [], [("/staging", 2)], 2, [], []⟩, []⟩).1 = none ∧
    (waitForMount NodeState.os "/staging" (((1000 : Nat) : Int) * (10 * Millisecond))
        ⟨⟨"/root", ["/staging"], [], [("/staging", 2)], 2, [], []⟩, []⟩).2.probes =
      (⟨⟨"/root", ["/staging"], [], [("/staging", 2)], 2, [], []⟩, []⟩ :
        NodeWorld NodeState).probes ++ List.replicate (2 + 1) "/staging" :=
  ((waitForMount_bounded NodeState.os "/staging" 1000 (by decide)
      ⟨⟨"/root", ["/staging"], [], [("/staging", 2)], 2, [], []⟩, []⟩).1
    2 (by decide) (by decide)).1 (by decide)

/-- C19, as stated, fails: when the credentials file cannot be opened, `Mount`
returns that error after the one call that tried to open the file, and runs no
command at all. -/
theorem s3Mounter_mount_runs_nothing_without_credentials :
    ((NewS3Mounter ⟨"shared", "vol-1", "s3fs", [], 0⟩
        ⟨"minio", "minio123", "eu", "http://minio:9000", ""⟩).Mount NodeState.os
        "/staging" "shared/vol-1"
        ⟨⟨"/root", ["/staging"], [], [], 0, ["open"], []⟩, []⟩).1
      = some (.errorf "permission denied") ∧
    ((NewS3Mounter ⟨"shared", "vol-1", "s3fs", [], 0⟩
        ⟨"minio", "minio123", "eu", "http://minio:9000", ""⟩).Mount NodeState.os
        "/staging" "shared/vol-1"
        ⟨⟨"/root", ["/staging"], [], [], 0, ["open"], []⟩, []⟩).2.calls
      = [.OpenFile "/root/.passwd-s3" [.O_RDWR, .O_CREATE] 0o600] ∧
    ((NewS3Mounter ⟨"shared", "vol-1", "s3fs", [], 0⟩
        ⟨"minio", "minio123", "eu", "http://minio:9000", ""⟩).Mount NodeState.os
        "/staging" "shared/vol-1"
        ⟨⟨"/root", ["/staging"], [], [], 0, ["open"], []⟩, []⟩).2.commands = [] := by
  decide

/-- C19, amended: once `writeS3Pass` has written the credentials file, `Mount`
runs the executable `s3fs` on the state that left, exactly once, with
exactly the arguments bucket`:`prefix, target, `-o use_path_request_style`,
`-o url=`endpoint, `-o allow_other`, `-o mp_umask=000`, followed by
`-o endpoint=`region exactly when the region is not empty: if that run fails,
`Mount` returns an Internal error in the state the run left, and otherwise it
waits for the mount from that state. When `writeS3Pass` fails, `Mount` returns
its error and world and runs no command. -/
theorem s3Mounter_mount_command {σ : Type} (os : OS σ) (meta : Metadata) (cfg : Config)
    (target volumeID : String) (w w1 : NodeWorld σ) (e : Option GoError)
    (args : List String)
    (hargs : args =
      [meta.BucketName ++ ":" ++ meta.Prefix, target,
        "-o", "use_path_request_style",
        "-o", "url=" ++ cfg.Endpoint,
        "-o", "allow_other",
        "-o", "mp_umask=000"] ++
      (if cfg.Region ≠ "" then ["-o", "endpoint=" ++ cfg.Region] else []))
    (hw : writeS3Pass os (cfg.AccessKeyID ++ ":" ++ cfg.SecretAccessKey) w = (e, w1)) :
    (e = none →
      ((NewS3Mounter meta cfg).Mount os target volumeID w).2.commands =
        w.commands ++ [("s3fs", args)] ∧
      ((os.Output w1.state "s3fs" args []).1.2 ≠ none →
        (NewS3Mounter meta cfg).Mount os target volumeID w =
          (some (.status .Internal ("Mount: failed to mount " ++ target ++ ": " ++
              fmtBytes (os.Output w1.state "s3fs" args []).1.1)),
            ⟨(os.Output w1.state "s3fs" args []).2,
              w1.calls ++ [.Output "s3fs" args []]⟩)) ∧
      ((os.Output w1.state "s3fs" args []).1.2 = none →
        (NewS3Mounter meta cfg).Mount os target volumeID w =
          waitForMount os target (10 * Second)
            ⟨(os.Output w1.state "s3fs" args []).2,
              w1.calls ++ [.Output "s3fs" args []]⟩)) ∧
    (∀ err, e = some err →
      (NewS3Mounter meta cfg).Mount os target volumeID w = (some err, w1) ∧
      ((NewS3Mounter meta cfg).Mount os target volumeID w).2.commands = w.commands) := by
  have hc := writeS3Pass_commands os (cfg.AccessKeyID ++ ":" ++ cfg.SecretAccessKey) w
  have ha : (NewS3Mounter meta cfg).args target = args := by
    rw [hargs]
    by_cases hr : cfg.Region = "" <;> simp [S3Mounter.args, NewS3Mounter, hr]
  rw [hw] at hc
  simp only at hc
  constructor
  · intro he
    subst he
    refine ⟨?_, ?_, ?_⟩
    · unfold S3Mounter.Mount
      simp only [NewS3Mounter] at ha ⊢
      rw [hw]
      simp only
      rw [fuseMount_commands, hc, ha]
    · intro ho
      unfold S3Mounter.Mount
      simp only [NewS3Mounter] at ha ⊢
      rw [hw]
      simp only
      rw [ha]
      unfold FuseMount
      cases hout : os.Output w1.state "s3fs" args [] with
      | mk r st =>
        obtain ⟨out, oe⟩ := r
        rw [hout] at ho
        cases oe with
        | none => simp at ho
        | some x => simp [NodeWorld.record]
    · intro ho
      unfold S3Mounter.Mount
      simp only [NewS3Mounter] at ha ⊢
      rw [hw]
      simp only
      rw [ha]
      unfold FuseMount
      cases hout : os.Output w1.state "s3fs" args [] with
      | mk r st =>
        obtain ⟨out, oe⟩ := r
        rw [hout] at ho
        simp only at ho
        subst ho
        simp [NodeWorld.record]
  · intro err he
    subst he
    unfold S3Mounter.Mount
    simp only [NewS3Mounter]
    rw [hw]
    simp only
    exact ⟨trivial, hc⟩

/-- Witness for C19, amended: with region `eu` the run of `s3fs` ends with
`-o endpoint=eu`, and the target is mounted afterwards. -/
theorem s3Mounter_mount_command_witness :
    ((NewS3Mounter ⟨"shared", "vol-1", "s3fs", [], 0⟩
        ⟨"minio", "minio123", "eu", "http://minio:9000", ""⟩).Mount NodeState.os
        "/staging" "shared/vol-1"
        ⟨⟨"/root", ["/staging"], [], [], 0, [], []⟩, []⟩).2.commands =
      [("s3fs", ["shared:vol-1", "/staging", "-o", "use_path_request_style",
        "-o", "url=http://minio:9000", "-o", "allow_other", "-o", "mp_umask=000",
        "-o", "endpoint=eu"])] ∧
    ((NewS3Mounter ⟨"shared", "vol-1", "s3fs", [], 0⟩
        ⟨"minio", "minio123", "eu", "http://minio:9000", ""⟩).Mount NodeState.os
        "/staging" "shared/vol-1"
        ⟨⟨"/root", ["/staging"], [], [], 0, [], []⟩, []⟩).1 = none ∧
    NodeState.os.mounted
      ((NewS3Mounter ⟨"shared", "vol-1", "s3fs", [], 0⟩
        ⟨"minio", "minio123", "eu", "http://minio:9000", ""⟩).Mount NodeState.os
        "/staging" "shared/vol-1"
        ⟨⟨"/root", ["/staging"], [], [], 0, [], []⟩, []⟩).2.state "/staging" = true :=
  ⟨((s3Mounter_mount_command NodeState.os ⟨"shared", "vol-1", "s3fs", [], 0⟩
      ⟨"minio", "minio123", "eu", "http://minio:9000", ""⟩ "/staging" "shared/vol-1"
      ⟨⟨"/root", ["/staging"], [], [], 0, [], []⟩, []⟩
      (writeS3Pass NodeState.os "minio:minio123"
        ⟨⟨"/root", ["/staging"], [], [], 0, [], []⟩, []⟩).2
      none
      ["shared:vol-1", "/staging", "-o", "use_path_request_style",
        "-o", "url=http://minio:9000", "-o", "allow_other", "-o", "mp_umask=000",
        "-o", "endpoint=eu"]
      (by decide) (by decide)).1 rfl).1,
   by decide, by decide⟩

/-- C13, as stated, fails: `/target` is a live mount point but `/staging` is
not, and the call runs the FUSE mounter `s3fs` on `/staging` before it
returns success. -/
theorem nodePublish_remounts_staging_for_live_target :
    (nodeServer.NodePublishVolume MemStore.env sampleLib NodeState.os
        (publishReq [("mounter", "s3fs")]) (nodeWith ["/target"])).1 = .ok {} ∧
    (nodeServer.NodePublishVolume MemStore.env sampleLib NodeState.os
        (publishReq [("mounter", "s3fs")]) (nodeWith ["/target"])).2.commands =
      [("s3fs", ["shared:vol-1", "/staging", "-o", "use_path_request_style",
        "-o", "url=http://minio:9000", "-o", "allow_other", "-o", "mp_umask=000"])] := by
  decide

/-- C13, amended: for every `NodePublishVolume` request that passes validation,
when the probes report both the staging path and the target path as mount
points the call returns success and its only calls are these two probes: no
command is run. -/
theorem nodePublish_idempotent {σ τ : Type} (env : Env τ) (lib : GoLib) (os : OS σ)
    (n : NodeServer) (req : NodePublishVolumeRequest) (w : NodeWorld σ) (st1 st2 : σ)
    (hcap : req.VolumeCapability.isSome = true) (hid : req.VolumeId ≠ "")
    (hstaging : req.StagingTargetPath ≠ "") (htarget : req.TargetPath ≠ "")
    (hs : os.IsLikelyNotMountPoint w.state req.StagingTargetPath = ((false, none), st1))
    (ht : os.IsLikelyNotMountPoint st1 req.TargetPath = ((false, none), st2)) :
    n.NodePublishVolume env lib os req w =
      (.ok {}, ⟨st2, w.calls ++ [.IsLikelyNotMountPoint req.StagingTargetPath,
        .IsLikelyNotMountPoint req.TargetPath]⟩) := by
  have h1 : ¬ req.VolumeId.length = 0 := fun h => hid ((length_eq_zero_iff _).mp h)
  have h2 : ¬ req.StagingTargetPath.length = 0 :=
    fun h => hstaging ((length_eq_zero_iff _).mp h)
  have h3 : ¬ req.TargetPath.length = 0 := fun h => htarget ((length_eq_zero_iff _).mp h)
  have hc : req.VolumeCapability.isNone = false := by
    cases hv : req.VolumeCapability with
    | none => rw [hv] at hcap; simp at hcap
    | some v => rfl
  have hcs : checkMount os req.StagingTargetPath w =
      ((false, none), w.record st1 (.IsLikelyNotMountPoint req.StagingTargetPath)) := by
    simp [checkMount, hs]
  have hct : checkMount os req.TargetPath
      (w.record st1 (.IsLikelyNotMountPoint req.StagingTargetPath)) =
      ((false, none), (w.record st1 (.IsLikelyNotMountPoint req.StagingTargetPath)).record
        st2 (.IsLikelyNotMountPoint req.TargetPath)) := by
    simp [checkMount, NodeWorld.record, ht]
  unfold NodeServer.NodePublishVolume
  simp only [hc, h1, h2, h3, Bool.false_eq_true, if_false, hcs, hct, Bool.not_false,
    if_true]
  simp [NodeWorld.record]

/-- Witness for C13, amended: `/staging` and `/target` are both mounted. -/
theorem nodePublish_idempotent_witness :
    nodeServer.NodePublishVolume MemStore.env sampleLib NodeState.os (publishReq [])
        (nodeWith ["/staging", "/target"]) =
      (.ok {}, ⟨(nodeWith ["/staging", "/target"]).state,
        (nodeWith ["/staging", "/target"]).calls ++
          [.IsLikelyNotMountPoint "/staging", .IsLikelyNotMountPoint "/target"]⟩) :=
  nodePublish_idempotent MemStore.env sampleLib NodeState.os nodeServer (publishReq [])
    (nodeWith ["/staging", "/target"]) (nodeWith ["/staging", "/target"]).state
    (nodeWith ["/staging", "/target"]).state (by decide) (by decide) (by decide) (by decide)
    (by decide) (by decide)

/-- C14, as stated, fails: the request passes validation, `/staging` is not
mounted, the client can be built and every command would succeed, but the
volume context names no mounter (the one `CreateVolume` returns is empty), so
the call ends with `InvalidArgument` after the first probe and runs no
command. -/
theorem nodePublish_fails_without_mounter :
    (nodeServer.NodePublishVolume MemStore.env sampleLib NodeState.os (publishReq [])
        (nodeWith [])).1
      = .error (.status .InvalidArgument "Mounter  not supported") ∧
    (nodeServer.NodePublishVolume MemStore.env sampleLib NodeState.os (publishReq [])
        (nodeWith [])).2.calls = [.IsLikelyNotMountPoint "/staging"] := by
  decide

/-- C14, amended: for every `NodePublishVolume` request that passes validation,
whose staging path is reported as not mounted and whose volume context names
the mounter `s3fs`, provided the client can be built from the secrets, the
credentials file can be written, the `s3fs` command (run on the staging path
with the bucket and prefix decoded from the volume ID) succeeds and its mount
becomes visible within the 10 s wait, the target path is reported as not
mounted and the bind command succeeds: the call returns success, and the bind
of the staging path onto the target is its last call. -/
theorem nodePublish_revives_staging {σ τ : Type} (env : Env τ) (lib : GoLib) (os : OS σ)
    (n : NodeServer) (req : NodePublishVolumeRequest) (w : NodeWorld σ)
    (s3 : S3Client τ) (w1 w2 w4 w5 : NodeWorld σ) (st3 st6 : σ) (out out2 : List Nat)
    (hcap : req.VolumeCapability.isSome = true) (hid : req.VolumeId ≠ "")
    (hstaging : req.StagingTargetPath ≠ "") (htarget : req.TargetPath ≠ "")
    (h1 : checkMount os req.StagingTargetPath w = ((true, none), w1))
    (h2 : NewClientFromSecrets env req.Secrets = .ok s3)
    (h3 : req.VolumeContext.get "mounter" = "s3fs")
    (h4 : writeS3Pass os (s3.Config.AccessKeyID ++ ":" ++ s3.Config.SecretAccessKey) w1
      = (none, w2))
    (h5 : os.Output w2.state "s3fs"
        ([(volumeIDToBucketPrefix req.VolumeId).1 ++ ":" ++
            (volumeIDToBucketPrefix req.VolumeId).2, req.StagingTargetPath,
          "-o", "use_path_request_style",
          "-o", "url=" ++ s3.Config.Endpoint,
          "-o", "allow_other",
          "-o", "mp_umask=000"] ++
          (if s3.Config.Region ≠ "" then ["-o", "endpoint=" ++ s3.Config.Region] else []))
        [] = ((out, none), st3))
    (h6 : waitForMount os req.StagingTargetPath (10 * Second)
        (w2.record st3 (.Output "s3fs"
          ([(volumeIDToBucketPrefix req.VolumeId).1 ++ ":" ++
              (volumeIDToBucketPrefix req.VolumeId).2, req.StagingTargetPath,
            "-o", "use_path_request_style",
            "-o", "url=" ++ s3.Config.Endpoint,
            "-o", "allow_other",
            "-o", "mp_umask=000"] ++
            (if s3.Config.Region ≠ "" then ["-o", "endpoint=" ++ s3.Config.Region] else []))
          [])) = (none, w4))
    (h7 : checkMount os req.TargetPath w4 = ((true, none), w5))
    (h8 : os.Output w5.state "mount" ["--bind", req.StagingTargetPath, req.TargetPath] []
      = ((out2, none), st6)) :
    n.NodePublishVolume env lib os req w =
      (.ok {}, w5.record st6
        (.Output "mount" ["--bind", req.StagingTargetPath, req.TargetPath] [])) := by
  have hv1 : ¬ req.VolumeId.length = 0 := fun h => hid ((length_eq_zero_iff _).mp h)
  have hv2 : ¬ req.StagingTargetPath.length = 0 :=
    fun h => hstaging ((length_eq_zero_iff _).mp h)
  have hv3 : ¬ req.TargetPath.length = 0 := fun h => htarget ((length_eq_zero_iff _).mp h)
  have hc : req.VolumeCapability.isNone = false := by
    cases hv : req.VolumeCapability with
    | none => rw [hv] at hcap; simp at hcap
    | some v => rfl
  have hrev : NodeServer.revive env lib os req w1 = (none, w4) := by
    unfold NodeServer.revive
    cases hbp : volumeIDToBucketPrefix req.VolumeId with
    | mk bucketName pfx =>
      rw [hbp] at h5 h6
      simp only at h5 h6
      have hm : (getMeta lib bucketName pfx req.VolumeContext).Mounter = "s3fs" := by
        simp [getMeta, h3]
      simp only [h2, newMounter_s3fs _ _ hm]
      unfold S3Mounter.Mount
      have hpw : (NewS3Mounter (getMeta lib bucketName pfx req.VolumeContext)
          s3.Config).pwFileContent =
          s3.Config.AccessKeyID ++ ":" ++ s3.Config.SecretAccessKey := rfl
      rw [hpw, h4]
      simp only
      rw [S3Mounter.args_eq]
      have hb : (getMeta lib bucketName pfx req.VolumeContext).BucketName = bucketName := rfl
      have hp : (getMeta lib bucketName pfx req.VolumeContext).Prefix = pfx := rfl
      rw [hb, hp]
      unfold FuseMount
      rw [h5]
      simp only
      exact h6
  unfold NodeServer.NodePublishVolume
  simp only [hc, hv1, hv2, hv3, Bool.false_eq_true, if_false, h1, if_true, hrev, h7,
    Bool.not_true, h8]

/-- Witness for C14, amended: `/staging` and `/target` exist and are not mounted,
the volume context names `s3fs`. -/
theorem nodePublish_revives_staging_witness :
    nodeServer.NodePublishVolume MemStore.env sampleLib NodeState.os
        (publishReq [("mounter", "s3fs")]) (nodeWith []) =
      (.ok {},
        ⟨⟨"/root", ["/staging", "/target"], ["/staging", "/target"], [], 0, [],
          [("/root/.passwd-s3", "minio:minio123")]⟩,
         [.IsLikelyNotMountPoint "/staging",
          .OpenFile "/root/.passwd-s3" [.O_RDWR, .O_CREATE] 0o600,
          .WriteString "/root/.passwd-s3" "minio:minio123",
          .Close "/root/.passwd-s3",
          .Output "s3fs" ["shared:vol-1", "/staging", "-o", "use_path_request_style",
            "-o", "url=http://minio:9000", "-o", "allow_other", "-o", "mp_umask=000"] [],
          .IsLikelyNotMountPoint "/staging",
          .IsLikelyNotMountPoint "/target",
          .Output "mount" ["--bind", "/staging", "/target"] []]⟩) :=
  nodePublish_revives_staging MemStore.env sampleLib NodeState.os nodeServer
    (publishReq [("mounter", "s3fs")]) (nodeWith [])
    ⟨⟨"minio", "minio123", "", "http://minio:9000", ""⟩, MemStore.client⟩
    ⟨⟨"/root", ["/staging", "/target"], [], [], 0, [], []⟩,
      [.IsLikelyNotMountPoint "/staging"]⟩
    ⟨⟨"/root", ["/staging", "/target"], [], [], 0, [],
        [("/root/.passwd-s3", "minio:minio123")]⟩,
      [.IsLikelyNotMountPoint "/staging",
       .OpenFile "/root/.passwd-s3" [.O_RDWR, .O_CREATE] 0o600,
       .WriteString "/root/.passwd-s3" "minio:minio123",
       .Close "/root/.passwd-s3"]⟩
    ⟨⟨"/root", ["/staging", "/target"], ["/staging"], [], 0, [],
        [("/root/.passwd-s3", "minio:minio123")]⟩,
      [.IsLikelyNotMountPoint "/staging",
       .OpenFile "/root/.passwd-s3" [.O_RDWR, .O_CREATE] 0o600,
       .WriteString "/root/.passwd-s3" "minio:minio123",
       .Close "/root/.passwd-s3",
       .Output "s3fs" ["shared:vol-1", "/staging", "-o", "use_path_request_style",
         "-o", "url=http://minio:9000", "-o", "allow_other", "-o", "mp_umask=000"] [],
       .IsLikelyNotMountPoint "/staging"]⟩
    ⟨⟨"/root", ["/staging", "/target"], ["/staging"], [], 0, [],
        [("/root/.passwd-s3", "minio:minio123")]⟩,
      [.IsLikelyNotMountPoint "/staging",
       .OpenFile "/root/.passwd-s3" [.O_RDWR, .O_CREATE] 0o600,
       .WriteString "/root/.passwd-s3" "minio:minio123",
       .Close "/root/.passwd-s3",
       .Output "s3fs" ["shared:vol-1", "/staging", "-o", "use_path_request_style",
         "-o", "url=http://minio:9000", "-o", "allow_other", "-o", "mp_umask=000"] [],
       .IsLikelyNotMountPoint "/staging",
       .IsLikelyNotMountPoint "/target"]⟩
    ⟨"/root", ["/staging", "/target"], ["/staging"], [], 0, [],
      [("/root/.passwd-s3", "minio:minio123")]⟩
    ⟨"/root", ["/staging", "/target"], ["/staging", "/target"], [], 0, [],
      [("/root/.passwd-s3", "minio:minio123")]⟩
    [] []
    (by decide) (by decide) (by decide) (by decide) (by decide) rfl (by decide)
    (by decide) (by decide) (by decide) (by decide) (by decide)

/-- C15, as stated, fails: the target path `/gone` does not exist, so it is not
mounted before the call and not mounted after it, and the call returns an
Internal error. -/
theorem nodeUnpublish_fails_for_absent_target :
    NodeState.os.mounted (nodeWith []).state "/gone" = false ∧
    (nodeServer.NodeUnpublishVolume NodeState.os ⟨"shared/vol-1", "/gone"⟩
      (nodeWith [])).1 = .error (.status .Internal "unmount failed: exit status 32") ∧
    NodeState.os.mounted
      (nodeServer.NodeUnpublishVolume NodeState.os ⟨"shared/vol-1", "/gone"⟩
        (nodeWith [])).2.state "/gone" = false := by
  decide

/-- C15, amended: for every `NodeUnpublishVolume` request with a non-empty volume
ID and target path, the call makes exactly one call, the unmount of the target
path, and leaves the state that unmount left; it succeeds when the unmount
reports no error and otherwise returns an Internal error with the unmount's
message, whether or not the path was or is mounted. -/
theorem nodeUnpublish_follows_unmount {σ : Type} (os : OS σ) (n : NodeServer)
    (req : NodeUnpublishVolumeRequest) (w : NodeWorld σ)
    (hid : req.VolumeId ≠ "") (htarget : req.TargetPath ≠ "") :
    (n.NodeUnpublishVolume os req w).2 =
      ⟨(os.Unmount w.state req.TargetPath).2, w.calls ++ [.Unmount req.TargetPath]⟩ ∧
    ((os.Unmount w.state req.TargetPath).1 = none →
      (n.NodeUnpublishVolume os req w).1 = .ok {}) ∧
    (∀ err, (os.Unmount w.state req.TargetPath).1 = some err →
      (n.NodeUnpublishVolume os req w).1 = .error (.status .Internal err.Error)) := by
  have h1 : ¬ req.VolumeId.length = 0 := fun h => hid ((length_eq_zero_iff _).mp h)
  have h2 : ¬ req.TargetPath.length = 0 := fun h => htarget ((length_eq_zero_iff _).mp h)
  unfold NodeServer.NodeUnpublishVolume Unmount
  simp only [h1, h2, if_false]
  cases hu : os.Unmount w.state req.TargetPath with
  | mk e st =>
    cases e with
    | none => simp [NodeWorld.record]
    | some err => simp [NodeWorld.record]

/-- Witness for C15, amended: `/target` is mounted, the call unmounts it and
succeeds. -/
theorem nodeUnpublish_follows_unmount_witness :
    (nodeServer.NodeUnpublishVolume NodeState.os ⟨"shared/vol-1", "/target"⟩
      (nodeWith ["/target"])).2 =
      ⟨(NodeState.os.Unmount (nodeWith ["/target"]).state "/target").2,
        [.Unmount "/target"]⟩ ∧
    (nodeServer.NodeUnpublishVolume NodeState.os ⟨"shared/vol-1", "/target"⟩
      (nodeWith ["/target"])).1 = .ok {} ∧
    NodeState.os.mounted
      (nodeServer.NodeUnpublishVolume NodeState.os ⟨"shared/vol-1", "/target"⟩
        (nodeWith ["/target"])).2.state "/target" = false :=
  ⟨(nodeUnpublish_follows_unmount NodeState.os nodeServer ⟨"shared/vol-1", "/target"⟩
      (nodeWith ["/target"]) (by decide) (by decide)).1,
   (nodeUnpublish_follows_unmount NodeState.os nodeServer ⟨"shared/vol-1", "/target"⟩
      (nodeWith ["/target"]) (by decide) (by decide)).2.1 (by decide),
   by decide⟩

/-- C16: a request that lacks a required field (empty name or volume ID, nil
capabilities, empty staging or target path) gets an `InvalidArgument` status
from `CreateVolume`, `DeleteVolume`, `ValidateVolumeCapabilities`,
`NodePublishVolume` and `NodeUnpublishVolume`, and the world is left exactly as
it was: no store call, no probe, no command, no unmount. -/
theorem missing_field_invalid_argument {σ ν τ : Type} (env : Env σ) (envN : Env τ)
    (lib : GoLib) (os : OS ν) (c : ControllerServer) (n : NodeServer) :
    (∀ (req : CreateVolumeRequest) (w : World σ),
      req.Name = "" ∨ req.VolumeCapabilities = none →
      ∃ msg, c.CreateVolume env req w = (.error (.status .InvalidArgument msg), w)) ∧
    (∀ (req : DeleteVolumeRequest) (w : World σ), req.VolumeId = "" →
      ∃ msg, c.DeleteVolume env req w = (.error (.status .InvalidArgument msg), w)) ∧
    (∀ (req : ValidateVolumeCapabilitiesRequest) (w : World σ),
      req.VolumeId = "" ∨ req.VolumeCapabilities = none →
      ∃ msg, c.ValidateVolumeCapabilities env req w =
        (.returned (.error (.status .InvalidArgument msg)), w)) ∧
    (∀ (req : NodePublishVolumeRequest) (w : NodeWorld ν),
      req.VolumeCapability = none ∨ req.VolumeId = "" ∨ req.StagingTargetPath = "" ∨
        req.TargetPath = "" →
      ∃ msg, n.NodePublishVolume envN lib os req w =
        (.error (.status .InvalidArgument msg), w)) ∧
    (∀ (req : NodeUnpublishVolumeRequest) (w : NodeWorld ν),
      req.VolumeId = "" ∨ req.TargetPath = "" →
      ∃ msg, n.NodeUnpublishVolume os req w =
        (.error (.status .InvalidArgument msg), w)) := by
  have hlen : ("" : String).length = 0 := rfl
  refine ⟨?_, ?_, ?_, ?_, ?_⟩
  · intro req w h
    unfold ControllerServer.CreateVolume CSIDriver.ValidateControllerServiceRequest
    by_cases hv : (c.Driver.cap.any fun cap =>
        decide (ControllerServiceCapability_RPC_Type.CREATE_DELETE_VOLUME = cap.GetRpcType))
        = true
    · by_cases hn : req.Name = ""
      · exact ⟨_, by simp [hv, hn, hlen]; rfl⟩
      · have hc : req.VolumeCapabilities = none := by
          rcases h with h | h
          · exact absurd h hn
          · exact h
        have hn2 : ¬ req.Name.length = 0 := fun h0 => hn ((length_eq_zero_iff _).mp h0)
        exact ⟨_, by simp [hv, hn2, hc]; rfl⟩
    · exact ⟨_, by simp [hv]; rfl⟩
  · intro req w h
    unfold ControllerServer.DeleteVolume
    exact ⟨_, by simp [h, hlen]; rfl⟩
  · intro req w h
    unfold ControllerServer.ValidateVolumeCapabilities
    by_cases hn : req.VolumeId = ""
    · exact ⟨_, by simp [hn, hlen]; rfl⟩
    · have hc : req.VolumeCapabilities = none := by
        rcases h with h | h
        · exact absurd h hn
        · exact h
      have hn2 : ¬ req.VolumeId.length = 0 := fun h0 => hn ((length_eq_zero_iff _).mp h0)
      exact ⟨_, by simp [hn2, hc]; rfl⟩
  · intro req w h
    unfold NodeServer.NodePublishVolume
    by_cases h0 : req.VolumeCapability = none
    · exact ⟨_, by simp [h0]; rfl⟩
    · have h0' : req.VolumeCapability.isNone = false := by
        cases hv : req.VolumeCapability with
        | none => exact absurd hv h0
        | some v => rfl
      by_cases h1 : req.VolumeId = ""
      · exact ⟨_, by simp [h0', h1, hlen]; rfl⟩
      · have h1' : ¬ req.VolumeId.length = 0 :=
          fun h => h1 ((length_eq_zero_iff _).mp h)
        by_cases h2 : req.StagingTargetPath = ""
        · exact ⟨_, by simp [h0', h1', h2, hlen]; rfl⟩
        · have h2' : ¬ req.StagingTargetPath.length = 0 :=
            fun h => h2 ((length_eq_zero_iff _).mp h)
          have h3 : req.TargetPath = "" := by
            rcases h with h | h | h | h
            · exact absurd h h0
            · exact absurd h h1
            · exact absurd h h2
            · exact h
          exact ⟨_, by simp [h0', h1', h2', h3, hlen]; rfl⟩
  · intro req w h
    unfold NodeServer.NodeUnpublishVolume
    by_cases h1 : req.VolumeId = ""
    · exact ⟨_, by simp [h1, hlen]; rfl⟩
    · have h1' : ¬ req.VolumeId.length = 0 := fun h => h1 ((length_eq_zero_iff _).mp h)
      have h2 : req.TargetPath = "" := by
        rcases h with h | h
        · exact absurd h h1
        · exact h
      exact ⟨_, by simp [h1', h2, hlen]; rfl⟩

/-- Witness for C16: a publish request without volume ID leaves the node
untouched. -/
theorem missing_field_invalid_argument_witness :
    ∃ msg, nodeServer.NodePublishVolume MemStore.env sampleLib NodeState.os
        ⟨"", "/staging", "/target", some ⟨some ⟨.SINGLE_NODE_WRITER⟩, []⟩, false,
          sampleSecrets, []⟩ (nodeWith []) =
      (.error (.status .InvalidArgument msg), nodeWith []) :=
  (missing_field_invalid_argument MemStore.env MemStore.env sampleLib NodeState.os
    controller nodeServer).2.2.2.1 _ _ (Or.inr (Or.inl rfl))

/-- C18: on a node where `/staging` is not mounted, `NodeStageVolume` returns the
`Unimplemented` status, makes no call and mounts nothing, `NodeUnstageVolume`
returns `Unimplemented` too, while `NodeGetCapabilities` advertises
`STAGE_UNSTAGE_VOLUME`. -/
theorem nodeStage_unimplemented :
    (nodeServer.NodeStageVolume NodeState.os
        ⟨"shared/vol-1", "/staging", some ⟨some ⟨.SINGLE_NODE_WRITER⟩, []⟩, sampleSecrets,
          [("mounter", "s3fs")]⟩ (nodeWith [])).1
      = .error (.status .Unimplemented "NodeStageVolume is not implemented") ∧
    (nodeServer.NodeStageVolume NodeState.os
        ⟨"shared/vol-1", "/staging", some ⟨some ⟨.SINGLE_NODE_WRITER⟩, []⟩, sampleSecrets,
          [("mounter", "s3fs")]⟩ (nodeWith [])).2.calls = [] ∧
    (nodeServer.NodeStageVolume NodeState.os
        ⟨"shared/vol-1", "/staging", some ⟨some ⟨.SINGLE_NODE_WRITER⟩, []⟩, sampleSecrets,
          [("mounter", "s3fs")]⟩ (nodeWith [])).2.state.mounts = [] ∧
    (nodeServer.NodeUnstageVolume NodeState.os ⟨"shared/vol-1", "/staging"⟩
        (nodeWith ["/staging"])).1
      = .error (.status .Unimplemented "NodeUnstageVolume is not implemented") ∧
    (nodeServer.NodeUnstageVolume NodeState.os ⟨"shared/vol-1", "/staging"⟩
        (nodeWith ["/staging"])).2.state.mounts = ["/staging"] ∧
    nodeServer.NodeGetCapabilities = .ok ⟨[.STAGE_UNSTAGE_VOLUME]⟩ := by
  decide

/-- C17: with the registry entry of `vol-1` held, `CreateVolume` for `vol-1` still
runs its body (it queries the store and succeeds), `DeleteVolume` for `vol-1`
still calls the store client and `NodeUnpublishVolume` still unmounts; the
registry is never read or written. -/
theorem lifecycle_ignores_held_lock :
    heldDriver.VolumeLocks.IsLocked "vol-1" = true ∧
    (Driver.CreateVolume MemStore.env heldDriver ⟨"vol-1", none, writerCaps, [], []⟩
        ⟨⟨true, [("vol-1", [])], [], false⟩, []⟩).1 = .ok ⟨⟨"vol-1", 0, []⟩⟩ ∧
    (Driver.CreateVolume MemStore.env heldDriver ⟨"vol-1", none, writerCaps, [], []⟩
        ⟨⟨true, [("vol-1", [])], [], false⟩, []⟩).2.2.calls = [.BucketExists "vol-1"] ∧
    (Driver.CreateVolume MemStore.env heldDriver ⟨"vol-1", none, writerCaps, [], []⟩
        ⟨⟨true, [("vol-1", [])], [], false⟩, []⟩).2.1 = heldDriver ∧
    (Driver.DeleteVolume MemStore.env heldDriver ⟨"vol-1", []⟩
        ⟨⟨true, [("vol-1", [])], [], false⟩, []⟩).2.2.calls
      = [.RemoveObject "vol-1" "" ""] ∧
    (Driver.NodeUnpublishVolume NodeState.os heldDriver ⟨"vol-1", "/target"⟩
        (nodeWith ["/target"])).2.2.calls = [.Unmount "/target"] := by
  decide

theorem nodePublish_samples :
    (nodeServer.NodePublishVolume MemStore.env sampleLib NodeState.os
        ⟨"shared/vol-1", "/staging", "/target", some ⟨some ⟨.SINGLE_NODE_WRITER⟩, []⟩,
          false, sampleSecrets, [("mounter", "s3fs")]⟩
        ⟨⟨"/root", ["/staging", "/target"], [], [], 2, [], []⟩, []⟩).1 = .ok {} ∧
    (nodeServer.NodePublishVolume MemStore.env sampleLib NodeState.os
        ⟨"shared/vol-1", "/staging", "/target", some ⟨some ⟨.SINGLE_NODE_WRITER⟩, []⟩,
          false, sampleSecrets, [("mounter", "s3fs")]⟩
        ⟨⟨"/root", ["/staging", "/target"], [], [], 2, [], []⟩, []⟩).2.calls =
      [.IsLikelyNotMountPoint "/staging",
       .OpenFile "/root/.passwd-s3" [.O_RDWR, .O_CREATE] 0o600,
       .WriteString "/root/.passwd-s3" "minio:minio123",
       .Close "/root/.passwd-s3",
       .Output "s3fs" ["shared:vol-1", "/staging", "-o", "use_path_request_style",
         "-o", "url=http://minio:9000", "-o", "allow_other", "-o", "mp_umask=000"] [],
       .IsLikelyNotMountPoint "/staging", .Sleep 10000000,
       .IsLikelyNotMountPoint "/staging", .Sleep 10000000,
       .IsLikelyNotMountPoint "/staging",
       .IsLikelyNotMountPoint "/target",
       .Output "mount" ["--bind", "/staging", "/target"] []] := by
  decide

/-- C21: with the credentials file holding `AKIAOLDKEY:oldsecret`, `Mount` for the
pair `ak` / `sk` leaves `ak:sk` followed by the tail of the previous content:
the file is opened without truncation and written from its start. -/
theorem mount_keeps_tail_of_old_credentials :
    ((NewS3Mounter ⟨"shared", "vol-1", "s3fs", [], 0⟩
        ⟨"ak", "sk", "", "http://minio:9000", ""⟩).Mount NodeState.os
        "/staging" "shared/vol-1"
        ⟨⟨"/root", ["/staging"], [], [], 0, [],
          [("/root/.passwd-s3", "AKIAOLDKEY:oldsecret")]⟩, []⟩).1 = none ∧
    (((NewS3Mounter ⟨"shared", "vol-1", "s3fs", [], 0⟩
        ⟨"ak", "sk", "", "http://minio:9000", ""⟩).Mount NodeState.os
        "/staging" "shared/vol-1"
        ⟨⟨"/root", ["/staging"], [], [], 0, [],
          [("/root/.passwd-s3", "AKIAOLDKEY:oldsecret")]⟩, []⟩).2.state.content
        "/root/.passwd-s3") = "ak:skLDKEY:oldsecret" ∧
    (((NewS3Mounter ⟨"shared", "vol-1", "s3fs", [], 0⟩
        ⟨"ak", "sk", "", "http://minio:9000", ""⟩).Mount NodeState.os
        "/staging" "shared/vol-1"
        ⟨⟨"/root", ["/staging"], [], [], 0, [],
          [("/root/.passwd-s3", "AKIAOLDKEY:oldsecret")]⟩, []⟩).2.calls.take 3) =
      [.OpenFile "/root/.passwd-s3" [.O_RDWR, .O_CREATE] 0o600,
       .WriteString "/root/.passwd-s3" "ak:sk",
       .Close "/root/.passwd-s3"] := by
  decide

/-- C23: `NewControllerServiceCapability cap` is the capability of the RPC
variant whose type is `cap`, so distinct types give distinct capabilities; in
particular for the two cases of the test. -/
theorem newControllerServiceCapability_type :
    (∀ cap : ControllerServiceCapability_RPC_Type,
      NewControllerServiceCapability cap = ⟨some ⟨cap⟩⟩ ∧
      (NewControllerServiceCapability cap).GetRpcType = cap) ∧
    (∀ a b : ControllerServiceCapability_RPC_Type,
      NewControllerServiceCapability a = NewControllerServiceCapability b → a = b) ∧
    NewControllerServiceCapability .CREATE_DELETE_VOLUME
      = ⟨some ⟨.CREATE_DELETE_VOLUME⟩⟩ ∧
    NewControllerServiceCapability .PUBLISH_UNPUBLISH_VOLUME
      = ⟨some ⟨.PUBLISH_UNPUBLISH_VOLUME⟩⟩ := by
  refine ⟨fun cap => ⟨rfl, rfl⟩, ?_, rfl, rfl⟩
  intro a b h
  have := congrArg ControllerServiceCapability.GetRpcType h
  simpa [NewControllerServiceCapability, ControllerServiceCapability.GetRpcType] using this

/-- C24: for volume `vol-1`, whose bucket exists, and a capability list with one
capability that carries no access mode, `ValidateVolumeCapabilities` does not
return: reading `.Mode` through the nil access mode panics. -/
theorem validateVolumeCapabilities_panics_without_access_mode :
    (controller.ValidateVolumeCapabilities MemStore.env
        ⟨"vol-1", some [⟨none, []⟩], []⟩
        ⟨⟨true, [("vol-1", [])], [], false⟩, []⟩).1
      = .panicked "invalid memory address or nil pointer dereference" ∧
    (controller.ValidateVolumeCapabilities MemStore.env
        ⟨"vol-1", some [⟨some ⟨.SINGLE_NODE_WRITER⟩, []⟩], []⟩
        ⟨⟨true, [("vol-1", [])], [], false⟩, []⟩).1
      = .returned (.ok ⟨some [⟨some ⟨.SINGLE_NODE_WRITER⟩, []⟩], ""⟩) := by
  decide

/-- C22, as stated, fails: `UNIX:///csi/csi.sock` does not begin with `unix://`
or `tcp://`, yet `ParseEndpoint` succeeds on it and returns the protocol
`UNIX`. -/
theorem parseEndpoint_accepts_upper_case :
    HasPrefix "UNIX:///csi/csi.sock" "unix://" = false ∧
    HasPrefix "UNIX:///csi/csi.sock" "tcp://" = false ∧
    ParseEndpoint asciiLower "UNIX:///csi/csi.sock"
      = .returned ("UNIX", "/csi/csi.sock", none) := by
  decide

/-- C22, amended: `ParseEndpoint` always returns, and it succeeds if and only if
the lower-cased endpoint begins with `unix://` or `tcp://` and the text after
the first `://` is not empty. On success the address is that text, protocol
++ `://` ++ address is the endpoint, and the protocol lower-cased is `unix` or
`tcp`; otherwise the result is an error with empty protocol and address.
(`lower` is `unicode.ToLower`, which maps only `:` to `:` and only `/` to
`/`.) -/
theorem parseEndpoint_spec (lower : Char → Char)
    (hcolon : ∀ c, lower c = ':' ↔ c = ':') (hslash : ∀ c, lower c = '/' ↔ c = '/')
    (endpoint : String) :
    ((HasPrefix (ToLower lower endpoint) "unix://" = true ∨
        HasPrefix (ToLower lower endpoint) "tcp://" = true) ∧
      textAfter "://" endpoint ≠ "" →
      ∃ proto addr, ParseEndpoint lower endpoint = .returned (proto, addr, none) ∧
        addr = textAfter "://" endpoint ∧
        proto ++ "://" ++ addr = endpoint ∧
        (ToLower lower proto = "unix" ∨ ToLower lower proto = "tcp")) ∧
    (¬ ((HasPrefix (ToLower lower endpoint) "unix://" = true ∨
        HasPrefix (ToLower lower endpoint) "tcp://" = true) ∧
      textAfter "://" endpoint ≠ "") →
      ParseEndpoint lower endpoint =
        .returned ("", "", some (.errorf ("invalid endpoint: " ++ endpoint)))) := by
  by_cases hpre : HasPrefix (ToLower lower endpoint) "unix://" = true ∨
      HasPrefix (ToLower lower endpoint) "tcp://" = true
  · -- the scheme is there: the endpoint is `p://rest` with no `:` in `p`
    have hshape : ∃ p rest, endpoint.data = p ++ ':' :: '/' :: '/' :: rest ∧ ':' ∉ p ∧
        (p.map lower = ['u', 'n', 'i', 'x'] ∨ p.map lower = ['t', 'c', 'p']) := by
      rcases hpre with h | h
      · obtain ⟨p, rest, h1, h2, h3⟩ := hasPrefix_unix lower hcolon hslash endpoint h
        exact ⟨p, rest, h1, h2, Or.inl h3⟩
      · obtain ⟨p, rest, h1, h2, h3⟩ := hasPrefix_tcp lower hcolon hslash endpoint h
        exact ⟨p, rest, h1, h2, Or.inr h3⟩
    obtain ⟨p, rest, hdata, hp, hlow⟩ := hshape
    obtain ⟨hafter, hparse⟩ := parseEndpoint_of_scheme lower endpoint p rest hpre hdata hp
    have hne : textAfter "://" endpoint ≠ "" ↔ rest ≠ [] := by
      rw [hafter]
      constructor
      · intro h hr
        exact h (by rw [hr])
      · intro h hs
        exact h (congrArg String.data hs)
    constructor
    · intro h
      have hr : rest ≠ [] := hne.mp h.2
      refine ⟨⟨p⟩, ⟨rest⟩, ?_, hafter.symm, ?_, ?_⟩
      · rw [hparse]; simp [hr]
      · apply String.ext
        simp [String.data_append, hdata]
      · rcases hlow with h1 | h1
        · left; apply String.ext; simpa [ToLower] using h1
        · right; apply String.ext; simpa [ToLower] using h1
    · intro h
      have hr : rest = [] := by
        by_contra hr
        exact h ⟨hpre, hne.mpr hr⟩
      rw [hparse]
      simp [hr]
  · constructor
    · intro h
      exact absurd h.1 hpre
    · intro _
      have hor : (HasPrefix (ToLower lower endpoint) "unix://" ||
          HasPrefix (ToLower lower endpoint) "tcp://") = false := by
        simp only [not_or, Bool.not_eq_true] at hpre
        simp [hpre.1, hpre.2]
      unfold ParseEndpoint
      simp [hor]

/-- Witness for C22, amended: a unix socket endpoint. -/
theorem parseEndpoint_spec_witness :
    ∃ proto addr, ParseEndpoint asciiLower "unix:///csi/csi.sock"
        = .returned (proto, addr, none) ∧
      addr = textAfter "://" "unix:///csi/csi.sock" ∧
      proto ++ "://" ++ addr = "unix:///csi/csi.sock" ∧
      (ToLower asciiLower proto = "unix" ∨ ToLower asciiLower proto = "tcp") :=
  (parseEndpoint_spec asciiLower asciiLower_colon asciiLower_slash
    "unix:///csi/csi.sock").1 ⟨Or.inl (by decide), by decide⟩

end S3Csi
